import Mathlib

/-!
Verification of the DNS endpoint-generation core of the dns-operator
repository, file `api/v1alpha1/dnsrecord_endpoints.go`, as a shallow
embedding.

Go pointers to `externaldns.Endpoint` are modelled explicitly: a `Heap` is a
list of endpoint values and a pointer (`Ptr`) is an index into it.  The
previous-record map `currentEndpoints` maps identity keys to pointers, and
`createOrUpdateEndpoint` mutates the pointed-to record in place exactly as
the Go code does, so aliasing between entries of the returned slice is
modelled faithfully.

External collaborators that the source treats as provided capabilities
(the deterministic short-code hash `hash.ToBase36HashLen` and kubernetes
label-selector compilation/matching) are injected as function parameters,
mirroring the spec's instruction to treat them as injected capabilities.
-/

set_option maxRecDepth 100000

/-- Models `externaldns.Endpoint` (sigs.k8s.io/external-dns/endpoint).
`providerSpecific` is the list of `ProviderSpecificProperty{Name, Value}`
pairs and `labels` is the `Labels` map; both are carried untouched except
where the source mutates them.  The default field values are the Go
zero values of the struct. -/
structure Endpoint where
  dnsName : String := ""
  targets : List String := []
  recordType : String := ""
  setIdentifier : String := ""
  recordTTL : Nat := 0
  labels : List (String × String) := []
  providerSpecific : List (String × String) := []
deriving DecidableEq, Repr

/-- Models `metav1.LabelSelectorRequirement` (key, operator, values). -/
structure LabelSelectorRequirement where
  key : String := ""
  op : String := ""
  values : List String := []
deriving DecidableEq, Repr

/-- Models `metav1.LabelSelector`.  `none` models a nil map / nil slice,
`some` a non-nil one, since `Routing.Validate` distinguishes nil-ness. -/
structure LabelSelector where
  matchLabels : Option (List (String × String)) := none
  matchExpressions : Option (List LabelSelectorRequirement) := none
deriving DecidableEq, Repr

/-- Models `RoutingStrategy` (a Go string type). -/
abbrev RoutingStrategy := String

def SimpleRoutingStrategy : RoutingStrategy := "simple"

def LoadBalancedRoutingStrategy : RoutingStrategy := "loadbalanced"

def DefaultTTL : Nat := 60

def DefaultCnameTTL : Nat := 300

def LabelLBAttributeGeoCode : String := "kuadrant.io/lb-attribute-geo-code"

/-- Modelled from the spec: the record-type constant `ARecordType` is
declared elsewhere in the repository (dnsrecord types file, not under the
sources given); its value "A" is pinned by the unit tests of
dnsrecord_endpoints, which expect `RecordType = "A"` for address records. -/
def ARecordType : String := "A"

/-- Modelled from the spec: the record-type constant `CNAMERecordType` is
declared elsewhere in the repository; its value "CNAME" is pinned by the
unit tests, which expect `RecordType = "CNAME"` for alias records. -/
def CNAMERecordType : String := "CNAME"

/-- Modelled from the spec: the sentinel default geo constant `DefaultGeo`
is declared elsewhere in the repository; the unit tests pin its value to
"default" (a gateway without the geo label produces records named
`default.klb...` with `setIdentifier = "default"`). -/
def DefaultGeo : String := "default"

/-- Modelled from the spec: the wildcard geo constant `WildcardGeo` is
declared elsewhere in the repository; the unit tests pin its value to "*"
(the catch-all record carries provider attribute `geo-code = "*"`). -/
def WildcardGeo : String := "*"

/-- Modelled from the spec: the provider-specific attribute key for weights,
pinned to "weight" by the unit tests. -/
def ProviderSpecificWeight : String := "weight"

/-- Modelled from the spec: the provider-specific attribute key for geo
codes, pinned to "geo-code" by the unit tests. -/
def ProviderSpecificGeoCode : String := "geo-code"

/-- Models `gatewayapiv1.IPAddressType`; only equality with it matters. -/
def IPAddressType : String := "IPAddress"

/-- Models `gatewayapiv1.GatewayStatusAddress`: a type tag and a value. -/
structure GatewayAddress where
  addrType : String
  value : String
deriving DecidableEq, Repr

/-- Models the parts of `gatewayapiv1.Gateway` the source reads: name,
namespace, labels and status addresses. -/
structure Gateway where
  name : String := ""
  ns : String := ""
  labels : List (String × String) := []
  addresses : List GatewayAddress := []
deriving DecidableEq, Repr

/-- Models the part of `gatewayapiv1.Listener` the source reads: the
optional hostname (a nil pointer is `none`). -/
structure Listener where
  hostname : Option String := none
deriving DecidableEq, Repr

/-- Models the part of `DNSRecord` the source reads:
`dnsRecord.Spec.Endpoints`. -/
structure DNSRecord where
  endpoints : List Endpoint := []
deriving DecidableEq, Repr

/-- Models `CustomWeight`. -/
structure CustomWeight where
  weight : Int := 0
  selector : LabelSelector := {}
deriving DecidableEq, Repr

/-- Models `Routing`.  The Go slice `CustomWeights` may be nil; a nil slice
and an empty slice are behaviourally identical everywhere in the source
(the nil-guard around the validation loop is subsumed by an empty loop),
so it is modelled as a plain list. -/
structure Routing where
  strategy : RoutingStrategy := ""
  defaultGeoCode : String := ""
  defaultWeight : Int := 0
  customWeights : List CustomWeight := []
  clusterID : String := ""
deriving DecidableEq, Repr

/-- Injected capabilities, per the spec's design notes: the deterministic
short-code hash (`hash.ToBase36HashLen`, internals out of scope) and
label-selector compilation (`v1.LabelSelectorAsSelector` followed by
`selector.Matches`); `compileSelector` returns `none` when compilation
fails and otherwise a predicate on a label set. -/
structure Capabilities where
  shortCode : String → String
  compileSelector : LabelSelector → Option (List (String × String) → Bool)

/-! ### Small string helpers modelling Go standard-library calls -/

/-- Modelled from the spec: Go's `strings.ToLower`, written on the
character list so that lengths are easy to reason about (ASCII-faithful). -/
def goToLower (s : String) : String := ⟨s.data.map Char.toLower⟩

/-- Removes every (leftmost, non-overlapping) occurrence of `*.`. -/
def removeStarDotList : List Char → List Char
  | '*' :: '.' :: rest => removeStarDotList rest
  | c :: rest => c :: removeStarDotList rest
  | [] => []

/-- Modelled from the spec: Go's `strings.Replace(host, "*.", "", -1)`,
which removes every leftmost non-overlapping occurrence of `*.`. -/
def goReplaceStarDot (s : String) : String := ⟨removeStarDotList s.data⟩

/-! ### Heap machinery for modelling Go pointers -/

abbrev Ptr := Nat

abbrev Heap := List Endpoint

/-- The previous-record map `map[string]*externaldns.Endpoint`. -/
abbrev CurMap := List (String × Ptr)

def heapGet (h : Heap) (p : Ptr) : Endpoint := h.getD p {}

def heapSet (h : Heap) (p : Ptr) (e : Endpoint) : Heap := h.set p e

def derefAll (h : Heap) (ps : List Ptr) : List Endpoint := ps.map (heapGet h)

/-- Go map insertion (overwriting an existing key). -/
def mapInsert (m : CurMap) (k : String) (v : Ptr) : CurMap :=
  if m.any (fun kv => kv.1 == k) then
    m.map (fun kv => if kv.1 == k then (k, v) else kv)
  else m ++ [(k, v)]

/-! ### The source functions -/

/-- `getSetID`: the identity key, `endpoint.DNSName + endpoint.SetIdentifier`. -/
def getSetID (endpoint : Endpoint) : String :=
  endpoint.dnsName ++ endpoint.setIdentifier

/-- The loop of lines 97-99, carrying the index of the next record. -/
def buildCurrentLoop : Nat → List Endpoint → CurMap → CurMap
  | _, [], m => m
  | i, e :: rest, m => buildCurrentLoop (i + 1) rest (mapInsert m (getSetID e) i)

/-- Builds the `currentEndpoints` map of `GenerateEndpoints` (lines 96-99):
each previous record, in order, is stored (by pointer) under its set id;
a later record with the same key overwrites an earlier one.  Pointer `i`
denotes the `i`-th previous record in the initial heap. -/
def buildCurrentEndpoints (endpoints : List Endpoint) : CurMap :=
  buildCurrentLoop 0 endpoints []

/-- Modelled from the spec: `Endpoint.SetProviderSpecificProperty` of the
external-dns library (not part of this repository): replace the value of
the first property with the given name, else append a new property. -/
def setProviderSpecificList : List (String × String) → String → String → List (String × String)
  | [], k, v => [(k, v)]
  | (n, w) :: rest, k, v =>
    if n = k then (n, v) :: rest else (n, w) :: setProviderSpecificList rest k v

/-- Modelled from the spec: see `setProviderSpecificList`. -/
def Endpoint.setProviderSpecificProperty (e : Endpoint) (k v : String) : Endpoint :=
  { e with providerSpecific := setProviderSpecificList e.providerSpecific k v }

/-- `createOrUpdateEndpoint` (lines 244-259): look up `dnsName + setIdentifier`
in the previous-record map; on a hit, mutate that record's DNSName,
RecordType, Targets and RecordTTL in place and return the same pointer; on
a miss, allocate a fresh record (whose SetIdentifier is set only when
non-empty, matching the source's redundant guard). -/
def createOrUpdateEndpoint (dnsName : String) (targets : List String)
    (recordType : String) (setIdentifier : String) (recordTTL : Nat)
    (currentEndpoints : CurMap) (h : Heap) : Heap × Ptr :=
  let endpointID := dnsName ++ setIdentifier
  match List.lookup endpointID currentEndpoints with
  | some p =>
    let e := heapGet h p
    (heapSet h p { e with dnsName := dnsName, recordType := recordType,
                          targets := targets, recordTTL := recordTTL }, p)
  | none =>
    let e0 : Endpoint := {}
    let e1 := if setIdentifier ≠ "" then { e0 with setIdentifier := setIdentifier } else e0
    let e2 := { e1 with dnsName := dnsName, recordType := recordType,
                        targets := targets, recordTTL := recordTTL }
    (h ++ [e2], h.length)

/-- `isWildCardHost`: `strings.HasPrefix(host, "*")`. -/
def isWildCardHost (host : String) : Bool :=
  match host.data with
  | '*' :: _ => true
  | _ => false

/-- `getGeoFromLabel`: the gateway's geo label, else the sentinel default. -/
def getGeoFromLabel (gateway : Gateway) : String :=
  match List.lookup LabelLBAttributeGeoCode gateway.labels with
  | some geoCode => geoCode
  | none => DefaultGeo

/-- The address-partition loop shared by both strategies: the IP-typed
address values, in order. -/
def ipValuesOf (gateway : Gateway) : List String :=
  (gateway.addresses.filter (fun gwa => gwa.addrType == IPAddressType)).map (·.value)

/-- The address-partition loop shared by both strategies: the non-IP-typed
address values, in order. -/
def hostValuesOf (gateway : Gateway) : List String :=
  (gateway.addresses.filter (fun gwa => !(gwa.addrType == IPAddressType))).map (·.value)

/-- `Routing.getWeight`'s loop (lines 280-293).  The accumulator `weight`
is the Go local variable: it still holds the default when a selector fails
to compile (the source returns it right there), and the first matching
entry's weight is returned. -/
def getWeightLoop (cap : Capabilities) (gwLabels : List (String × String))
    (weight : Int) : List CustomWeight → Int
  | [] => weight
  | cw :: rest =>
    match cap.compileSelector cw.selector with
    | none => weight
    | some m => if m gwLabels then cw.weight else getWeightLoop cap gwLabels weight rest

/-- `Routing.getWeight` (lines 280-293). -/
def Routing.getWeight (r : Routing) (cap : Capabilities) (gateway : Gateway) : Int :=
  getWeightLoop cap gateway.labels r.defaultWeight r.customWeights

/-- Length of a possibly-nil Go map (`len` of nil is 0). -/
def nilMapLen (m : Option (List (String × String))) : Nat :=
  match m with
  | none => 0
  | some l => l.length

/-- The custom-weight validation loop of `Routing.Validate` (lines 315-324).
The middle conjunct of the selector emptiness test mirrors the source's
redundant `len(MatchLabels) == 0` check. -/
def validateCustomWeights : List CustomWeight → Option String
  | [] => none
  | cw :: rest =>
    if cw.weight = 0 then some "custom weight cannot be zero"
    else if cw.selector.matchLabels.isNone
        && (nilMapLen cw.selector.matchLabels == 0)
        && cw.selector.matchExpressions.isNone then
      some "custom weight must define non-empty selector"
    else validateCustomWeights rest

/-- `Routing.Validate` (lines 295-326).  `none` models a nil error.  The
source's `if r.CustomWeights != nil` guard around the loop is behaviourally
the empty loop for nil, so it is dropped. -/
def Routing.Validate (r : Routing) : Option String :=
  if r.strategy = SimpleRoutingStrategy then none
  else if r.clusterID = "" then some "cluster ID is required"
  else if r.defaultWeight = 0 then some "default weight is required"
  else if r.defaultGeoCode = "" then some "default geocode is required"
  else validateCustomWeights r.customWeights

/-- `getSimpleEndpoints` (lines 122-148): partition the addresses, then emit
an A record with all IP values (when any) and a CNAME record with all
hostname values (when any), both through the merging `createOrUpdateEndpoint`. -/
def getSimpleEndpoints (gateway : Gateway) (hostname : String)
    (currentEndpoints : CurMap) (h : Heap) : Heap × List Ptr :=
  let ipValues := ipValuesOf gateway
  let hostValues := hostValuesOf gateway
  let step1 : Heap × List Ptr :=
    if ipValues ≠ [] then
      let hp := createOrUpdateEndpoint hostname ipValues ARecordType "" DefaultTTL currentEndpoints h
      (hp.1, [hp.2])
    else (h, [])
  if hostValues ≠ [] then
    let hp := createOrUpdateEndpoint hostname hostValues CNAMERecordType "" DefaultTTL currentEndpoints step1.1
    (hp.1, step1.2 ++ [hp.2])
  else step1

/-- One iteration of the weighted-record loop of `getLoadBalancedEndpoints`
(lines 208-212): emit a CNAME named `geoLbName` with set identifier and
single target `hostValue`, then set the weight provider attribute on that
very record. -/
def weightRecordStep (cap : Capabilities) (routing : Routing) (gateway : Gateway)
    (geoLbName : String) (currentEndpoints : CurMap)
    (acc : Heap × List Ptr) (hostValue : String) : Heap × List Ptr :=
  let hp := createOrUpdateEndpoint geoLbName [hostValue] CNAMERecordType hostValue DefaultTTL currentEndpoints acc.1
  let h2 := heapSet hp.1 hp.2
    ((heapGet hp.1 hp.2).setProviderSpecificProperty ProviderSpecificWeight
      (toString (routing.getWeight cap gateway)))
  (h2, acc.2 ++ [hp.2])

/-- The cluster A-record block of `getLoadBalancedEndpoints` (lines
201-206): when IP addresses exist, derive `clusterLbName` from the two
short codes, emit the A record for it, and extend the hostname-value set
with `clusterLbName`. -/
def clusterRecordStep (cap : Capabilities) (gateway : Gateway)
    (routing : Routing) (lbName : String)
    (currentEndpoints : CurMap) (h : Heap) : Heap × List Ptr × List String :=
  let ipValues := ipValuesOf gateway
  let hostValues := hostValuesOf gateway
  if ipValues ≠ [] then
    let clusterLbName := goToLower
      (cap.shortCode routing.clusterID ++ "-"
        ++ cap.shortCode (gateway.name ++ "-" ++ gateway.ns) ++ "." ++ lbName)
    let hp := createOrUpdateEndpoint clusterLbName ipValues ARecordType "" DefaultTTL currentEndpoints h
    (hp.1, [hp.2], hostValues ++ [clusterLbName])
  else (h, [], hostValues)

/-- Lines 219-233 of `getLoadBalancedEndpoints`: the geo CNAME named
`lbName` (geo attribute attached unless the geo code is the sentinel
default), then, when the geo code equals the policy default, the extra
catch-all record with set identifier "default" and geo attribute `*`. -/
def geoRecordStep (routing : Routing) (lbName geoCode geoLbName : String)
    (currentEndpoints : CurMap) (hp : Heap × List Ptr) : Heap × List Ptr :=
  let hp3 := createOrUpdateEndpoint lbName [geoLbName] CNAMERecordType geoCode DefaultCnameTTL currentEndpoints hp.1
  let h3 := if geoCode ≠ DefaultGeo then
      heapSet hp3.1 hp3.2 ((heapGet hp3.1 hp3.2).setProviderSpecificProperty ProviderSpecificGeoCode geoCode)
    else hp3.1
  let eps3 := hp.2 ++ [hp3.2]
  if geoCode = routing.defaultGeoCode then
    let hp4 := createOrUpdateEndpoint lbName [geoLbName] CNAMERecordType "default" DefaultCnameTTL currentEndpoints h3
    let h4 := heapSet hp4.1 hp4.2 ((heapGet hp4.1 hp4.2).setProviderSpecificProperty ProviderSpecificGeoCode WildcardGeo)
    (h4, eps3 ++ [hp4.2])
  else (h3, eps3)

/-- Lines 235-239 of `getLoadBalancedEndpoints`: the client-facing root
CNAME for the original hostname, guarded by non-emptiness. -/
def rootRecordStep (hostname lbName : String) (currentEndpoints : CurMap)
    (hp : Heap × List Ptr) : Heap × List Ptr :=
  if hp.2 ≠ [] then
    let hp5 := createOrUpdateEndpoint hostname [lbName] CNAMERecordType "" DefaultCnameTTL currentEndpoints hp.1
    (hp5.1, hp.2 ++ [hp5.2])
  else hp

/-- The tail of `getLoadBalancedEndpoints` (lines 214-241): the early
return on zero records, then the geo records and the root record. -/
def lbTailSteps (routing : Routing) (hostname lbName geoCode geoLbName : String)
    (currentEndpoints : CurMap) (hp : Heap × List Ptr) : Heap × List Ptr :=
  if hp.2 = [] then hp
  else rootRecordStep hostname lbName currentEndpoints
    (geoRecordStep routing lbName geoCode geoLbName currentEndpoints hp)

/-- `getLoadBalancedEndpoints` (lines 178-242), translated step by step:
wildcard stripping, lb/geo name derivation, the cluster A record (which
extends the hostname-value set), the weighted records, then the tail
(`lbTailSteps`). -/
def getLoadBalancedEndpoints (cap : Capabilities) (gateway : Gateway)
    (routing : Routing) (hostname : String)
    (currentEndpoints : CurMap) (h : Heap) : Heap × List Ptr :=
  let cnameHost := if isWildCardHost hostname then goReplaceStarDot hostname else hostname
  let lbName := goToLower ("klb." ++ cnameHost)
  let geoCode := getGeoFromLabel gateway
  let geoLbName := goToLower (geoCode ++ "." ++ lbName)
  let step1 := clusterRecordStep cap gateway routing lbName currentEndpoints h
  let step2 : Heap × List Ptr :=
    step1.2.2.foldl (weightRecordStep cap routing gateway geoLbName currentEndpoints)
      (step1.1, step1.2.1)
  lbTailSteps routing hostname lbName geoCode geoLbName currentEndpoints step2

/-- The output ordering relation: ascending identity key. -/
def keyLE (a b : Endpoint) : Prop := getSetID a ≤ getSetID b

instance : DecidableRel keyLE := fun a b =>
  decidable_of_iff (¬ (getSetID b).toList < (getSetID a).toList)
    (by rw [keyLE, String.le_iff_toList_le]; exact not_lt)

instance : IsTotal Endpoint keyLE := ⟨fun a b => le_total (getSetID a) (getSetID b)⟩

instance : IsTrans Endpoint keyLE := ⟨fun _ _ _ hab hbc => le_trans hab hbc⟩

/-- `GenerateEndpoints` (lines 85-119).  Returns `Except` because every Go
error path returns a nil record list together with the error.  The final
`sort.Slice` by ascending set id is modelled by a stable insertion sort on
the dereferenced records (Go leaves the order of equal keys unspecified;
by the time of the sort the heap is final, so sorting pointers and then
dereferencing equals sorting the dereferenced values). -/
def GenerateEndpoints (cap : Capabilities) (gateway : Gateway)
    (dnsRecord : Option DNSRecord) (listener : Listener)
    (routing : Routing) : Except String (List Endpoint) :=
  match listener.hostname with
  | none => .error "listener hostname is empty"
  | some gwListenerHost =>
    match dnsRecord with
    | none => .error "require current endpoints"
    | some record =>
      let heap : Heap := record.endpoints
      let currentEndpoints := buildCurrentEndpoints record.endpoints
      match routing.Validate with
      | some e => .error e
      | none =>
        if routing.strategy = SimpleRoutingStrategy then
          let hp := getSimpleEndpoints gateway gwListenerHost currentEndpoints heap
          .ok (List.insertionSort keyLE (derefAll hp.1 hp.2))
        else if routing.strategy = LoadBalancedRoutingStrategy then
          let hp := getLoadBalancedEndpoints cap gateway routing gwListenerHost currentEndpoints heap
          .ok (List.insertionSort keyLE (derefAll hp.1 hp.2))
        else
          .error ("unknown routing strategy : " ++ routing.strategy)

/-! ### Generic lemmas about the heap and maps -/

instance {e a : Type} [DecidableEq e] [DecidableEq a] : DecidableEq (Except e a) := fun x y =>
  match x, y with
  | .ok u, .ok v => decidable_of_iff (u = v) (by simp)
  | .error u, .error v => decidable_of_iff (u = v) (by simp)
  | .ok _, .error _ => isFalse (by simp)
  | .error _, .ok _ => isFalse (by simp)

theorem heapGet_heapSet_self : ∀ (h : Heap) (p : Ptr) (e : Endpoint),
    p < h.length → heapGet (heapSet h p e) p = e := by
  intro h
  induction h with
  | nil => intro p e hp; simp at hp
  | cons a t ih =>
    intro p e hp
    cases p with
    | zero => rfl
    | succ q => exact ih q e (Nat.lt_of_succ_lt_succ hp)

theorem heapGet_heapSet_other : ∀ (h : Heap) (p q : Ptr) (e : Endpoint),
    p ≠ q → heapGet (heapSet h p e) q = heapGet h q := by
  intro h
  induction h with
  | nil => intro p q e _; rfl
  | cons a t ih =>
    intro p q e hne
    cases p with
    | zero =>
      cases q with
      | zero => exact absurd rfl hne
      | succ _ => rfl
    | succ p1 =>
      cases q with
      | zero => rfl
      | succ q1 => exact ih p1 q1 e (fun hc => hne (by rw [hc]))

theorem heapGet_append_self : ∀ (h : Heap) (e : Endpoint),
    heapGet (h ++ [e]) h.length = e := by
  intro h e
  induction h with
  | nil => rfl
  | cons a t ih => exact ih

theorem heapGet_append_lt : ∀ (h t : Heap) (q : Ptr),
    q < h.length → heapGet (h ++ t) q = heapGet h q := by
  intro h
  induction h with
  | nil => intro t q hq; simp at hq
  | cons a s ih =>
    intro t q hq
    cases q with
    | zero => rfl
    | succ q1 => exact ih t q1 (Nat.lt_of_succ_lt_succ hq)

theorem heapSet_append_self : ∀ (h : Heap) (e1 e2 : Endpoint),
    heapSet (h ++ [e1]) h.length e2 = h ++ [e2] := by
  intro h e1 e2
  induction h with
  | nil => rfl
  | cons a t ih => simp only [heapSet] at ih ⊢; simp [ih]

theorem heapSet_length : ∀ (h : Heap) (p : Ptr) (e : Endpoint),
    (heapSet h p e).length = h.length := by
  intro h p e
  simp [heapSet]

/-! ### Claim C10 -/

/-- C10: the identity key used for previous-record lookup and output
ordering is the plain concatenation of name and set identifier, and it is
collision-prone: the two records ("ab","c") and ("a","bc") have distinct
identities yet equal keys, and the merge step
(`createOrUpdateEndpoint`) run with name "a" and set identifier "bc"
against a previous set holding the record named "ab" with set identifier
"c" reuses that record (pointer 0) as if it were the same record. -/
theorem c10_setID_concat_collides :
    (∀ e : Endpoint, getSetID e = e.dnsName ++ e.setIdentifier) ∧
    getSetID { dnsName := "ab", setIdentifier := "c" } =
      getSetID { dnsName := "a", setIdentifier := "bc" } ∧
    ({ dnsName := "ab", setIdentifier := "c" } : Endpoint).dnsName ≠
      ({ dnsName := "a", setIdentifier := "bc" } : Endpoint).dnsName ∧
    (createOrUpdateEndpoint "a" ["t"] "A" "bc" 60
        (buildCurrentEndpoints [{ dnsName := "ab", setIdentifier := "c" }])
        [{ dnsName := "ab", setIdentifier := "c" }]).2 = 0 ∧
    heapGet (createOrUpdateEndpoint "a" ["t"] "A" "bc" 60
        (buildCurrentEndpoints [{ dnsName := "ab", setIdentifier := "c" }])
        [{ dnsName := "ab", setIdentifier := "c" }]).1 0 =
      { dnsName := "a", targets := ["t"], recordType := "A",
        setIdentifier := "c", recordTTL := 60 } :=
  ⟨fun _ => rfl, by decide, by decide, by decide, by decide⟩

/-! ### Claim C2 -/

/-- A custom-weight entry whose selector is empty in the sense of
`Routing.Validate`: nil match labels and nil match expressions. -/
def selectorIsEmpty (cw : CustomWeight) : Prop :=
  cw.selector.matchLabels = none ∧ cw.selector.matchExpressions = none

instance (cw : CustomWeight) : Decidable (selectorIsEmpty cw) :=
  inferInstanceAs (Decidable (_ ∧ _))

theorem selectorIsEmpty_bool (cw : CustomWeight) :
    (cw.selector.matchLabels.isNone
        && (nilMapLen cw.selector.matchLabels == 0)
        && cw.selector.matchExpressions.isNone) = true ↔ selectorIsEmpty cw := by
  cases hm : cw.selector.matchLabels <;> cases he : cw.selector.matchExpressions <;>
    simp [selectorIsEmpty, nilMapLen, hm, he]

theorem validateCustomWeights_zero : ∀ l : List CustomWeight,
    (∀ cw ∈ l, ¬ selectorIsEmpty cw) → (∃ cw ∈ l, cw.weight = 0) →
    validateCustomWeights l = some "custom weight cannot be zero" := by
  intro l
  induction l with
  | nil => intro _ hz; simp at hz
  | cons cw t ih =>
    intro hsel hz
    by_cases hw : cw.weight = 0
    · simp [validateCustomWeights, hw]
    · have hnot : ¬ (cw.selector.matchLabels.isNone
          && (nilMapLen cw.selector.matchLabels == 0)
          && cw.selector.matchExpressions.isNone) = true := by
        rw [selectorIsEmpty_bool]
        exact hsel cw (List.mem_cons_self cw t)
      have hz2 : ∃ cw1 ∈ t, cw1.weight = 0 := by
        rcases hz with ⟨cw1, hm, hw1⟩
        rcases List.mem_cons.mp hm with h1 | h1
        · exact absurd (h1 ▸ hw1) hw
        · exact ⟨cw1, h1, hw1⟩
      simp only [validateCustomWeights, if_neg hw, if_neg hnot]
      exact ih (fun cw1 h1 => hsel cw1 (List.mem_cons_of_mem cw h1)) hz2

theorem validateCustomWeights_selector : ∀ l : List CustomWeight,
    (∀ cw ∈ l, cw.weight ≠ 0) → (∃ cw ∈ l, selectorIsEmpty cw) →
    validateCustomWeights l = some "custom weight must define non-empty selector" := by
  intro l
  induction l with
  | nil => intro _ hs; simp at hs
  | cons cw t ih =>
    intro hw hs
    have hw0 : cw.weight ≠ 0 := hw cw (List.mem_cons_self cw t)
    by_cases hsel : selectorIsEmpty cw
    · have hb : (cw.selector.matchLabels.isNone
          && (nilMapLen cw.selector.matchLabels == 0)
          && cw.selector.matchExpressions.isNone) = true :=
        (selectorIsEmpty_bool cw).mpr hsel
      simp [validateCustomWeights, if_neg hw0, hb]
    · have hnot : ¬ (cw.selector.matchLabels.isNone
          && (nilMapLen cw.selector.matchLabels == 0)
          && cw.selector.matchExpressions.isNone) = true := by
        rw [selectorIsEmpty_bool]; exact hsel
      have hs2 : ∃ cw1 ∈ t, selectorIsEmpty cw1 := by
        rcases hs with ⟨cw1, hm, h1⟩
        rcases List.mem_cons.mp hm with h2 | h2
        · exact absurd (h2 ▸ h1) hsel
        · exact ⟨cw1, h2, h1⟩
      simp only [validateCustomWeights, if_neg hw0, if_neg hnot]
      exact ih (fun cw1 h1 => hw cw1 (List.mem_cons_of_mem cw h1)) hs2

theorem validateCustomWeights_ok : ∀ l : List CustomWeight,
    (∀ cw ∈ l, cw.weight ≠ 0 ∧ ¬ selectorIsEmpty cw) →
    validateCustomWeights l = none := by
  intro l
  induction l with
  | nil => intro _; rfl
  | cons cw t ih =>
    intro h
    have hw0 : cw.weight ≠ 0 := (h cw (List.mem_cons_self cw t)).1
    have hnot : ¬ (cw.selector.matchLabels.isNone
        && (nilMapLen cw.selector.matchLabels == 0)
        && cw.selector.matchExpressions.isNone) = true := by
      rw [selectorIsEmpty_bool]
      exact (h cw (List.mem_cons_self cw t)).2
    simp only [validateCustomWeights, if_neg hw0, if_neg hnot]
    exact ih (fun cw1 h1 => h cw1 (List.mem_cons_of_mem cw h1))

/-- C2: for the load-balanced (geo-weighted) strategy, `Routing.Validate`
rejects each of the five invalid conditions in isolation with its own
distinct error message, accepts a policy satisfying all five requirements,
and for the simple strategy always accepts.  The five messages are pairwise
distinct. -/
theorem c2_validate_complete : ∀ r : Routing,
    (r.strategy = SimpleRoutingStrategy → r.Validate = none) ∧
    (r.strategy = LoadBalancedRoutingStrategy →
      ((r.clusterID = "" → r.Validate = some "cluster ID is required") ∧
       (r.clusterID ≠ "" → r.defaultWeight = 0 →
         r.Validate = some "default weight is required") ∧
       (r.clusterID ≠ "" → r.defaultWeight ≠ 0 → r.defaultGeoCode = "" →
         r.Validate = some "default geocode is required") ∧
       (r.clusterID ≠ "" → r.defaultWeight ≠ 0 → r.defaultGeoCode ≠ "" →
         (∀ cw ∈ r.customWeights, ¬ selectorIsEmpty cw) →
         (∃ cw ∈ r.customWeights, cw.weight = 0) →
         r.Validate = some "custom weight cannot be zero") ∧
       (r.clusterID ≠ "" → r.defaultWeight ≠ 0 → r.defaultGeoCode ≠ "" →
         (∀ cw ∈ r.customWeights, cw.weight ≠ 0) →
         (∃ cw ∈ r.customWeights, selectorIsEmpty cw) →
         r.Validate = some "custom weight must define non-empty selector") ∧
       (r.clusterID ≠ "" → r.defaultWeight ≠ 0 → r.defaultGeoCode ≠ "" →
         (∀ cw ∈ r.customWeights, cw.weight ≠ 0 ∧ ¬ selectorIsEmpty cw) →
         r.Validate = none))) ∧
    List.Pairwise (fun a b => a ≠ b)
      ["cluster ID is required", "default weight is required",
       "default geocode is required", "custom weight cannot be zero",
       "custom weight must define non-empty selector"] := by
  intro r
  refine ⟨?_, ?_, by decide⟩
  · intro hs
    simp [Routing.Validate, hs]
  · intro hs
    have hns : ¬ r.strategy = SimpleRoutingStrategy := by
      rw [hs]; decide
    refine ⟨?_, ?_, ?_, ?_, ?_, ?_⟩
    · intro hc
      simp [Routing.Validate, if_neg hns, hc]
    · intro hc hw
      simp [Routing.Validate, if_neg hns, hc, hw]
    · intro hc hw hg
      simp [Routing.Validate, if_neg hns, hc, hw, hg]
    · intro hc hw hg hsel hz
      simp only [Routing.Validate, if_neg hns, if_neg hc, if_neg hw, if_neg hg]
      exact validateCustomWeights_zero r.customWeights hsel hz
    · intro hc hw hg hw2 hsel
      simp only [Routing.Validate, if_neg hns, if_neg hc, if_neg hw, if_neg hg]
      exact validateCustomWeights_selector r.customWeights hw2 hsel
    · intro hc hw hg hok
      simp only [Routing.Validate, if_neg hns, if_neg hc, if_neg hw, if_neg hg]
      exact validateCustomWeights_ok r.customWeights hok

/-- C2 witness: a fully valid load-balanced policy is accepted, obtained by
applying `c2_validate_complete` at a concrete policy. -/
theorem c2_validate_complete_witness :
    Routing.Validate
      { strategy := "loadbalanced", defaultGeoCode := "IE", defaultWeight := 1,
        customWeights := [{ weight := 2, selector := { matchLabels := some [("a", "b")] } }],
        clusterID := "c" } = none :=
  (((c2_validate_complete
      { strategy := "loadbalanced", defaultGeoCode := "IE", defaultWeight := 1,
        customWeights := [{ weight := 2, selector := { matchLabels := some [("a", "b")] } }],
        clusterID := "c" }).2.1 rfl).2.2.2.2.2) (by decide) (by decide) (by decide) (by decide)

/-- C3: `GenerateEndpoints` fails exactly when the listener hostname is
absent, the previous DNSRecord is absent, policy validation fails, or the
strategy is unrecognized.  The result type couples the error with the
absence of a record list (every Go error path returns a nil list together
with the error, modelled by `Except.error`), so no partial list ever
accompanies an error. -/
theorem c3_error_characterization : ∀ (cap : Capabilities) (gateway : Gateway)
    (dnsRecord : Option DNSRecord) (listener : Listener) (routing : Routing),
    (∃ e, GenerateEndpoints cap gateway dnsRecord listener routing = .error e) ↔
      (listener.hostname = none ∨ dnsRecord = none ∨ routing.Validate ≠ none ∨
        (routing.strategy ≠ SimpleRoutingStrategy ∧
          routing.strategy ≠ LoadBalancedRoutingStrategy)) := by
  intro cap gateway dnsRecord listener routing
  cases listener with
  | mk hostname =>
    cases hostname with
    | none => simp [GenerateEndpoints]
    | some hn =>
      cases dnsRecord with
      | none => simp [GenerateEndpoints]
      | some record =>
        cases hv : routing.Validate with
        | some e => simp [GenerateEndpoints, hv]
        | none =>
          by_cases hsimple : routing.strategy = SimpleRoutingStrategy
          · simp [GenerateEndpoints, hv, hsimple]
          · by_cases hlb : routing.strategy = LoadBalancedRoutingStrategy
            · have hne : ¬ (LoadBalancedRoutingStrategy = SimpleRoutingStrategy) := by decide
              simp [GenerateEndpoints, hv, hsimple, hlb, hne]
            · simp [GenerateEndpoints, hv, hsimple, hlb]

/-! ### Claim C6 -/

/-- Whether a custom-weight entry's selector compiles and matches the given
label set (a failing selector matches nothing). -/
def matchesBool (cap : Capabilities) (gwLabels : List (String × String))
    (cw : CustomWeight) : Bool :=
  match cap.compileSelector cw.selector with
  | some m => m gwLabels
  | none => false

theorem getWeightLoop_all_compile : ∀ (cap : Capabilities)
    (gwLabels : List (String × String)) (w : Int) (l : List CustomWeight),
    (∀ cw ∈ l, (cap.compileSelector cw.selector).isSome) →
    getWeightLoop cap gwLabels w l =
      (match l.find? (matchesBool cap gwLabels) with
       | some cw => cw.weight
       | none => w) := by
  intro cap gwLabels w l
  induction l with
  | nil => intro _; rfl
  | cons cw t ih =>
    intro hall
    have hs : (cap.compileSelector cw.selector).isSome :=
      hall cw (List.mem_cons_self cw t)
    rcases Option.isSome_iff_exists.mp hs with ⟨m, hm⟩
    have hmb : matchesBool cap gwLabels cw = m gwLabels := by
      simp [matchesBool, hm]
    cases hml : m gwLabels with
    | true =>
      simp only [getWeightLoop, hm, hml, if_pos]
      simp [List.find?, hmb, hml]
    | false =>
      simp only [getWeightLoop, hm, hml, if_neg]
      rw [ih (fun cw1 h1 => hall cw1 (List.mem_cons_of_mem cw h1))]
      simp [List.find?, hmb, hml]

theorem getWeightLoop_abandon : ∀ (cap : Capabilities)
    (gwLabels : List (String × String)) (w : Int)
    (l1 : List CustomWeight) (cw : CustomWeight) (l2 : List CustomWeight),
    cap.compileSelector cw.selector = none →
    (∀ cw1 ∈ l1, matchesBool cap gwLabels cw1 = false ∧
      (cap.compileSelector cw1.selector).isSome) →
    getWeightLoop cap gwLabels w (l1 ++ cw :: l2) = w := by
  intro cap gwLabels w l1
  induction l1 with
  | nil =>
    intro cw l2 hbad _
    simp [getWeightLoop, hbad]
  | cons a t ih =>
    intro cw l2 hbad hall
    have ha := hall a (List.mem_cons_self a t)
    rcases Option.isSome_iff_exists.mp ha.2 with ⟨m, hm⟩
    have hml : m gwLabels = false := by
      have := ha.1
      simpa [matchesBool, hm] using this
    simp only [List.cons_append, getWeightLoop, hm, hml]
    exact ih cw l2 hbad (fun cw1 h1 => hall cw1 (List.mem_cons_of_mem a h1))

/-- C6: weight resolution walks `customWeights` in declaration order and
returns the weight of the first entry whose selector matches (default when
none does); as soon as an entry's selector fails to compile (before any
match), the default weight is returned — a malformed selector never
propagates an error. -/
theorem c6_weight_resolution : ∀ (cap : Capabilities) (r : Routing) (gateway : Gateway),
    ((∀ cw ∈ r.customWeights, (cap.compileSelector cw.selector).isSome) →
      r.getWeight cap gateway =
        (match r.customWeights.find? (matchesBool cap gateway.labels) with
         | some cw => cw.weight
         | none => r.defaultWeight)) ∧
    (∀ (l1 : List CustomWeight) (cw : CustomWeight) (l2 : List CustomWeight),
      r.customWeights = l1 ++ cw :: l2 →
      cap.compileSelector cw.selector = none →
      (∀ cw1 ∈ l1, matchesBool cap gateway.labels cw1 = false ∧
        (cap.compileSelector cw1.selector).isSome) →
      r.getWeight cap gateway = r.defaultWeight) := by
  intro cap r gateway
  constructor
  · intro hall
    exact getWeightLoop_all_compile cap gateway.labels r.defaultWeight r.customWeights hall
  · intro l1 cw l2 hsplit hbad hall
    rw [Routing.getWeight, hsplit]
    exact getWeightLoop_abandon cap gateway.labels r.defaultWeight l1 cw l2 hbad hall

/-! Shared concrete inputs for witnesses and counterexamples. -/

/-- A capability set where selector compilation always fails. -/
def capNone : Capabilities := ⟨fun s => s, fun _ => none⟩

def selA : LabelSelector := { matchLabels := some [("a", "1")] }

def selB : LabelSelector := { matchLabels := some [("b", "1")] }

/-- Everything compiles; exactly `selA` matches (any label set). -/
def capA : Capabilities := ⟨fun s => s, fun sel => some (fun _ => sel == selA)⟩

/-- `selB` fails to compile; everything else compiles and only `selA` matches. -/
def capBbad : Capabilities :=
  ⟨fun s => s, fun sel => if sel == selB then none else some (fun _ => sel == selA)⟩

def cwA : CustomWeight := { weight := 5, selector := selA }

def cwB : CustomWeight := { weight := 9, selector := selB }

/-- C6 witness: applying `c6_weight_resolution` at concrete inputs — with
both selectors compiling the first matching entry wins (weight 5); with a
non-compiling selector first, the default weight 3 is returned. -/
theorem c6_weight_resolution_witness :
    Routing.getWeight
      { strategy := "loadbalanced", defaultGeoCode := "IE", defaultWeight := 3,
        customWeights := [cwB, cwA], clusterID := "c" } capA { labels := [] } = 5 ∧
    Routing.getWeight
      { strategy := "loadbalanced", defaultGeoCode := "IE", defaultWeight := 3,
        customWeights := [cwB, cwA], clusterID := "c" } capBbad { labels := [] } = 3 :=
  ⟨((c6_weight_resolution capA
      { strategy := "loadbalanced", defaultGeoCode := "IE", defaultWeight := 3,
        customWeights := [cwB, cwA], clusterID := "c" } { labels := [] }).1
      (by decide)).trans (by decide),
   ((c6_weight_resolution capBbad
      { strategy := "loadbalanced", defaultGeoCode := "IE", defaultWeight := 3,
        customWeights := [cwB, cwA], clusterID := "c" } { labels := [] }).2
      [] cwB [cwA] rfl rfl (by simp)).trans (by decide)⟩

/-! ### Claim C7 -/

/-- C7: every successful result of `GenerateEndpoints` is sorted in
ascending lexicographic order of the identity key
(`keyLE a b` is `getSetID a ≤ getSetID b`, where `getSetID` concatenates
name and set identifier), independently of input iteration order. -/
theorem c7_output_sorted : ∀ (cap : Capabilities) (gateway : Gateway)
    (dnsRecord : Option DNSRecord) (listener : Listener) (routing : Routing)
    (l : List Endpoint),
    GenerateEndpoints cap gateway dnsRecord listener routing = .ok l →
    List.Sorted keyLE l := by
  intro cap gateway dnsRecord listener routing l hok
  cases listener with
  | mk hostname =>
    cases hostname with
    | none => simp [GenerateEndpoints] at hok
    | some hn =>
      cases dnsRecord with
      | none => simp [GenerateEndpoints] at hok
      | some record =>
        cases hv : routing.Validate with
        | some e => simp [GenerateEndpoints, hv] at hok
        | none =>
          by_cases hsimple : routing.strategy = SimpleRoutingStrategy
          · simp only [GenerateEndpoints, hv] at hok
            rw [if_pos hsimple] at hok
            injection hok with h
            rw [← h]
            exact List.sorted_insertionSort keyLE _
          · by_cases hlb : routing.strategy = LoadBalancedRoutingStrategy
            · simp only [GenerateEndpoints, hv] at hok
              rw [if_neg hsimple, if_pos hlb] at hok
              injection hok with h
              rw [← h]
              exact List.sorted_insertionSort keyLE _
            · simp only [GenerateEndpoints, hv] at hok
              rw [if_neg hsimple, if_neg hlb] at hok
              exact absurd hok (by simp)

/-- C7 witness: `c7_output_sorted` applied to a concrete load-balanced run
whose three records come out in ascending key order. -/
theorem c7_output_sorted_witness :
    List.Sorted keyLE
      [{ dnsName := "default.klb.h", targets := ["a"], recordType := "CNAME",
         setIdentifier := "a", recordTTL := 60, labels := [("k", "v")],
         providerSpecific := [("weight", "3")] },
       { dnsName := "h", targets := ["klb.h"], recordType := "CNAME",
         recordTTL := 300 },
       { dnsName := "klb.h", targets := ["default.klb.h"], recordType := "CNAME",
         setIdentifier := "default", recordTTL := 300 }] :=
  c7_output_sorted capNone { addresses := [⟨"Hostname", "a"⟩] }
    (some { endpoints := [{ dnsName := "default.klb.h", setIdentifier := "a",
                            providerSpecific := [("weight", "7")],
                            labels := [("k", "v")] }] })
    ⟨some "h"⟩
    { strategy := "loadbalanced", defaultGeoCode := "IE", defaultWeight := 3,
      clusterID := "c" } _ (by decide)

/-! ### Claim C1 -/

/-- C1 counterexample: the claim is false as stated for `GenerateEndpoints`
under the load-balanced strategy.  The previous record at identity
(`default.klb.h`, `a`) carries the externally attached provider-specific
property `weight = 7`; the recomputation reuses the allocation but
overwrites that property with the newly resolved weight 3, so a field
other than name, type, targets, TTL changed. -/
theorem c1_counterexample :
    GenerateEndpoints capNone { addresses := [⟨"Hostname", "a"⟩] }
      (some { endpoints := [{ dnsName := "default.klb.h", setIdentifier := "a",
                              providerSpecific := [("weight", "7")],
                              labels := [("k", "v")] }] })
      ⟨some "h"⟩
      { strategy := "loadbalanced", defaultGeoCode := "IE", defaultWeight := 3,
        clusterID := "c" } =
      .ok [{ dnsName := "default.klb.h", targets := ["a"], recordType := "CNAME",
             setIdentifier := "a", recordTTL := 60, labels := [("k", "v")],
             providerSpecific := [("weight", "3")] },
           { dnsName := "h", targets := ["klb.h"], recordType := "CNAME",
             recordTTL := 300 },
           { dnsName := "klb.h", targets := ["default.klb.h"], recordType := "CNAME",
             setIdentifier := "default", recordTTL := 300 }] ∧
    ([("weight", "3")] : List (String × String)) ≠ [("weight", "7")] :=
  ⟨by decide, by decide⟩

/-- C1 (amended): the merge step `createOrUpdateEndpoint` returns the very
same allocation (pointer) whenever the previous map holds the identity key,
overwriting only name, type, target list and TTL while preserving the
record's set identifier, labels and provider-specific properties; a record
is freshly allocated (at a new pointer, with empty labels and attributes)
exactly when the key is absent.  (Within `GenerateEndpoints` the weighted
and geo records afterwards update their weight/geo-code provider attribute
on that same allocation — the part the original claim overlooked.) -/
theorem c1_merge_preserves_identity : ∀ (dn : String) (tg : List String)
    (rt st : String) (ttl : Nat) (cur : CurMap) (h : Heap),
    (∀ p, List.lookup (dn ++ st) cur = some p → p < h.length →
      ((createOrUpdateEndpoint dn tg rt st ttl cur h).2 = p ∧
       heapGet (createOrUpdateEndpoint dn tg rt st ttl cur h).1 p =
         { dnsName := dn, targets := tg, recordType := rt,
           setIdentifier := (heapGet h p).setIdentifier, recordTTL := ttl,
           labels := (heapGet h p).labels,
           providerSpecific := (heapGet h p).providerSpecific })) ∧
    (List.lookup (dn ++ st) cur = none →
      ((createOrUpdateEndpoint dn tg rt st ttl cur h).2 = h.length ∧
       (createOrUpdateEndpoint dn tg rt st ttl cur h).1 =
         h ++ [{ dnsName := dn, targets := tg, recordType := rt,
                 setIdentifier := st, recordTTL := ttl }])) := by
  intro dn tg rt st ttl cur h
  constructor
  · intro p hp hlt
    refine ⟨by simp [createOrUpdateEndpoint, hp], ?_⟩
    simp only [createOrUpdateEndpoint, hp]
    exact heapGet_heapSet_self h p _ hlt
  · intro hp
    by_cases hst : st = ""
    · subst hst
      rw [String.append_empty] at hp
      simp [createOrUpdateEndpoint, hp]
    · simp [createOrUpdateEndpoint, hp, hst]

/-- C1 witness: `c1_merge_preserves_identity` applied at a concrete hit and
a concrete miss. -/
theorem c1_merge_preserves_identity_witness :
    (createOrUpdateEndpoint "geo.lb" ["t2"] "CNAME" "id" 60 [("geo.lbid", 0)]
      [{ dnsName := "geo.lb", setIdentifier := "id", targets := ["t1"],
         providerSpecific := [("x", "y")] }]).2 = 0 ∧
    heapGet (createOrUpdateEndpoint "geo.lb" ["t2"] "CNAME" "id" 60 [("geo.lbid", 0)]
      [{ dnsName := "geo.lb", setIdentifier := "id", targets := ["t1"],
         providerSpecific := [("x", "y")] }]).1 0 =
      { dnsName := "geo.lb", targets := ["t2"], recordType := "CNAME",
        setIdentifier := "id", recordTTL := 60,
        providerSpecific := [("x", "y")] } ∧
    (createOrUpdateEndpoint "geo.lb" ["t2"] "CNAME" "id" 60 [] []).2 = 0 ∧
    (createOrUpdateEndpoint "geo.lb" ["t2"] "CNAME" "id" 60 [] []).1 =
      [{ dnsName := "geo.lb", targets := ["t2"], recordType := "CNAME",
         setIdentifier := "id", recordTTL := 60 }] := by
  have h1 := (c1_merge_preserves_identity "geo.lb" ["t2"] "CNAME" "id" 60
    [("geo.lbid", 0)]
    [{ dnsName := "geo.lb", setIdentifier := "id", targets := ["t1"],
       providerSpecific := [("x", "y")] }]).1 0 (by decide) (by decide)
  have h2 := (c1_merge_preserves_identity "geo.lb" ["t2"] "CNAME" "id" 60 [] []).2 rfl
  exact ⟨h1.1, h1.2, h2.1, h2.2⟩

/-! ### Heap-growth and pointer-validity lemmas -/

theorem lookup_some_snd_mem : ∀ (m : CurMap) (k : String) (p : Ptr),
    List.lookup k m = some p → ∃ k1, (k1, p) ∈ m := by
  intro m k p
  induction m with
  | nil => intro hc; simp [List.lookup] at hc
  | cons kv t ih =>
    intro hl
    rw [List.lookup] at hl
    cases hb : (k == kv.1) with
    | true =>
      rw [hb] at hl
      simp only [cond] at hl
      exact ⟨kv.1, by rw [← Option.some_inj.mp hl]; exact List.mem_cons_self kv t⟩
    | false =>
      rw [hb] at hl
      simp only [cond] at hl
      rcases ih hl with ⟨k1, hm⟩
      exact ⟨k1, List.mem_cons_of_mem kv hm⟩

/-- Pointer validity of a map with respect to a heap. -/
def mapValid (cur : CurMap) (h : Heap) : Prop :=
  ∀ kp ∈ cur, kp.2 < h.length

instance (cur : CurMap) (h : Heap) : Decidable (mapValid cur h) :=
  inferInstanceAs (Decidable (∀ kp ∈ cur, kp.2 < h.length))

theorem mapValid_lookup (cur : CurMap) (h : Heap) (hv : mapValid cur h)
    (k : String) (p : Ptr) (hl : List.lookup k cur = some p) : p < h.length := by
  rcases lookup_some_snd_mem cur k p hl with ⟨k1, hm⟩
  exact hv (k1, p) hm

theorem createOrUpdateEndpoint_heap_grows (dn : String) (tg : List String)
    (rt st : String) (ttl : Nat) (cur : CurMap) (h : Heap) :
    h.length ≤ ((createOrUpdateEndpoint dn tg rt st ttl cur h).1).length := by
  rw [createOrUpdateEndpoint]
  cases hl : List.lookup (dn ++ st) cur with
  | some p => simp [heapSet]
  | none => simp

theorem weightRecordStep_heap_grows (cap : Capabilities) (routing : Routing)
    (gateway : Gateway) (geoLbName : String) (cur : CurMap)
    (acc : Heap × List Ptr) (hv : String) :
    acc.1.length ≤ ((weightRecordStep cap routing gateway geoLbName cur acc hv).1).length := by
  rw [weightRecordStep]
  simp only [heapSet_length]
  exact createOrUpdateEndpoint_heap_grows _ _ _ _ _ _ _

theorem weight_fold_heap_grows (cap : Capabilities) (routing : Routing)
    (gateway : Gateway) (geoLbName : String) (cur : CurMap) :
    ∀ (l : List String) (acc : Heap × List Ptr),
    acc.1.length ≤ ((l.foldl (weightRecordStep cap routing gateway geoLbName cur) acc).1).length := by
  intro l
  induction l with
  | nil => intro acc; exact Nat.le_refl _
  | cons hv t ih =>
    intro acc
    calc acc.1.length
        ≤ ((weightRecordStep cap routing gateway geoLbName cur acc hv).1).length :=
          weightRecordStep_heap_grows cap routing gateway geoLbName cur acc hv
      _ ≤ _ := ih _

theorem weight_fold_eps (cap : Capabilities) (routing : Routing)
    (gateway : Gateway) (geoLbName : String) (cur : CurMap) :
    ∀ (l : List String) (acc : Heap × List Ptr),
    ((l.foldl (weightRecordStep cap routing gateway geoLbName cur) acc).2).length
      = acc.2.length + l.length := by
  intro l
  induction l with
  | nil => intro acc; rfl
  | cons hv t ih =>
    intro acc
    rw [List.foldl_cons, ih]
    simp [weightRecordStep]
    omega

theorem addr_partition_nonempty (gateway : Gateway) (hne : gateway.addresses ≠ []) :
    ipValuesOf gateway ≠ [] ∨ hostValuesOf gateway ≠ [] := by
  cases haddr : gateway.addresses with
  | nil => exact absurd haddr hne
  | cons a t =>
    by_cases hip : (a.addrType == IPAddressType) = true
    · left; simp [ipValuesOf, haddr, List.filter_cons, hip]
    · right
      simp only [hostValuesOf, haddr, List.filter_cons]
      simp [hip]

theorem mapValid_mono (cur : CurMap) (h h2 : Heap) (hv : mapValid cur h)
    (hle : h.length ≤ h2.length) : mapValid cur h2 :=
  fun kp hm => Nat.lt_of_lt_of_le (hv kp hm) hle

/-- The record returned by the merge step always carries the four
freshly written fields, whether reused or freshly allocated. -/
theorem createOrUpdateEndpoint_post (dn : String) (tg : List String)
    (rt st : String) (ttl : Nat) (cur : CurMap) (h : Heap)
    (hvalid : mapValid cur h) :
    (heapGet (createOrUpdateEndpoint dn tg rt st ttl cur h).1
      (createOrUpdateEndpoint dn tg rt st ttl cur h).2).dnsName = dn ∧
    (heapGet (createOrUpdateEndpoint dn tg rt st ttl cur h).1
      (createOrUpdateEndpoint dn tg rt st ttl cur h).2).targets = tg ∧
    (heapGet (createOrUpdateEndpoint dn tg rt st ttl cur h).1
      (createOrUpdateEndpoint dn tg rt st ttl cur h).2).recordType = rt ∧
    (heapGet (createOrUpdateEndpoint dn tg rt st ttl cur h).1
      (createOrUpdateEndpoint dn tg rt st ttl cur h).2).recordTTL = ttl := by
  cases hl : List.lookup (dn ++ st) cur with
  | some p =>
    have hlt : p < h.length := mapValid_lookup cur h hvalid _ p hl
    simp only [createOrUpdateEndpoint, hl]
    rw [heapGet_heapSet_self h p _ hlt]
    exact ⟨rfl, rfl, rfl, rfl⟩
  | none =>
    simp only [createOrUpdateEndpoint, hl]
    rw [heapGet_append_self]
    exact ⟨rfl, rfl, rfl, rfl⟩



theorem clusterRecordStep_grows (cap : Capabilities) (gateway : Gateway)
    (routing : Routing) (lbName : String) (cur : CurMap) (h : Heap) :
    h.length ≤ ((clusterRecordStep cap gateway routing lbName cur h).1).length := by
  rw [clusterRecordStep]
  split
  · exact createOrUpdateEndpoint_heap_grows _ _ _ _ _ _ _
  · exact Nat.le_refl _

theorem clusterRecordStep_count (cap : Capabilities) (gateway : Gateway)
    (routing : Routing) (lbName : String) (cur : CurMap) (h : Heap)
    (hne : gateway.addresses ≠ []) :
    1 ≤ ((clusterRecordStep cap gateway routing lbName cur h).2.1).length
      + ((clusterRecordStep cap gateway routing lbName cur h).2.2).length := by
  rw [clusterRecordStep]
  split
  · simp
  · rename_i hip
    rcases addr_partition_nonempty gateway hne with hip2 | hhost
    · exact absurd hip2 (by simpa using hip)
    · have : 0 < (hostValuesOf gateway).length := List.length_pos.mpr hhost
      simpa using this

theorem geoRecordStep_grows (routing : Routing)
    (lbName geoCode geoLbName : String) (cur : CurMap) (hp : Heap × List Ptr) :
    hp.1.length ≤ ((geoRecordStep routing lbName geoCode geoLbName cur hp).1).length := by
  rw [geoRecordStep]
  have hbase : hp.1.length ≤
      ((if geoCode ≠ DefaultGeo then
          heapSet (createOrUpdateEndpoint lbName [geoLbName] CNAMERecordType geoCode DefaultCnameTTL cur hp.1).1
            (createOrUpdateEndpoint lbName [geoLbName] CNAMERecordType geoCode DefaultCnameTTL cur hp.1).2
            ((heapGet (createOrUpdateEndpoint lbName [geoLbName] CNAMERecordType geoCode DefaultCnameTTL cur hp.1).1
                (createOrUpdateEndpoint lbName [geoLbName] CNAMERecordType geoCode DefaultCnameTTL cur hp.1).2).setProviderSpecificProperty
              ProviderSpecificGeoCode geoCode)
        else (createOrUpdateEndpoint lbName [geoLbName] CNAMERecordType geoCode DefaultCnameTTL cur hp.1).1)).length := by
    split
    · rw [heapSet_length]
      exact createOrUpdateEndpoint_heap_grows _ _ _ _ _ _ _
    · exact createOrUpdateEndpoint_heap_grows _ _ _ _ _ _ _
  split
  · rw [heapSet_length]
    exact Nat.le_trans hbase (createOrUpdateEndpoint_heap_grows _ _ _ _ _ _ _)
  · exact hbase

theorem geoRecordStep_ne_nil (routing : Routing)
    (lbName geoCode geoLbName : String) (cur : CurMap) (hp : Heap × List Ptr) :
    ((geoRecordStep routing lbName geoCode geoLbName cur hp).2) ≠ [] := by
  rw [geoRecordStep]
  split <;> simp

theorem rootRecordStep_root (hostname lbName : String) (cur : CurMap)
    (hp : Heap × List Ptr) (hvalid : mapValid cur hp.1) (hne : hp.2 ≠ []) :
    ∃ front r,
      derefAll (rootRecordStep hostname lbName cur hp).1
               (rootRecordStep hostname lbName cur hp).2 = front ++ [r] ∧
      r.dnsName = hostname ∧ r.targets = [lbName] ∧
      r.recordType = CNAMERecordType ∧ r.recordTTL = DefaultCnameTTL := by
  rw [rootRecordStep, if_pos hne]
  rcases createOrUpdateEndpoint_post hostname [lbName] CNAMERecordType "" DefaultCnameTTL cur hp.1 hvalid
    with ⟨h1, h2, h3, h4⟩
  refine ⟨List.map (heapGet (createOrUpdateEndpoint hostname [lbName] CNAMERecordType "" DefaultCnameTTL cur hp.1).1) hp.2,
    heapGet (createOrUpdateEndpoint hostname [lbName] CNAMERecordType "" DefaultCnameTTL cur hp.1).1
      (createOrUpdateEndpoint hostname [lbName] CNAMERecordType "" DefaultCnameTTL cur hp.1).2,
    ?_, h1, h2, h3, h4⟩
  rw [derefAll, List.map_append]
  rfl

/-- The tail of the load-balanced synthesis, on a non-empty record list,
always ends with the client-facing root record: name = the original
hostname, single target = `lbName`, CNAME, long TTL. -/
theorem lbTailSteps_root (routing : Routing)
    (hostname lbName geoCode geoLbName : String) (cur : CurMap)
    (hp : Heap × List Ptr) (hvalid : mapValid cur hp.1) (hne : hp.2 ≠ []) :
    ∃ front r,
      derefAll (lbTailSteps routing hostname lbName geoCode geoLbName cur hp).1
               (lbTailSteps routing hostname lbName geoCode geoLbName cur hp).2
        = front ++ [r] ∧
      r.dnsName = hostname ∧ r.targets = [lbName] ∧
      r.recordType = CNAMERecordType ∧ r.recordTTL = DefaultCnameTTL := by
  rw [lbTailSteps, if_neg (by simpa using hne)]
  refine rootRecordStep_root hostname lbName cur _ ?_ ?_
  · exact mapValid_mono cur hp.1 _ hvalid (geoRecordStep_grows routing lbName geoCode geoLbName cur hp)
  · exact geoRecordStep_ne_nil routing lbName geoCode geoLbName cur hp

/-! ### Claim C9 -/

/-- C9 counterexample: for hostname `*.a.*.b` the source strips every
occurrence of `*.` (not only the leading label): the load-balancer base
becomes `klb.a.b`, not `klb.a.*.b` as the claim states. -/
theorem c9_counterexample :
    GenerateEndpoints capNone { addresses := [⟨"Hostname", "t"⟩] } (some {})
      ⟨some "*.a.*.b"⟩
      { strategy := "loadbalanced", defaultGeoCode := "IE", defaultWeight := 1,
        clusterID := "c" } =
      .ok [{ dnsName := "*.a.*.b", targets := ["klb.a.b"], recordType := "CNAME",
             recordTTL := 300 },
           { dnsName := "default.klb.a.b", targets := ["t"], recordType := "CNAME",
             setIdentifier := "t", recordTTL := 60,
             providerSpecific := [("weight", "1")] },
           { dnsName := "klb.a.b", targets := ["default.klb.a.b"], recordType := "CNAME",
             setIdentifier := "default", recordTTL := 300 }] ∧
    ("klb.a.b" : String) ≠ "klb.a.*.b" :=
  ⟨by decide, by decide⟩

/-- C9 (amended): under the load-balanced strategy with a non-empty address
set, the load-balancer base name is the hostname with every occurrence of
the substring `*.` removed whenever the hostname begins with `*` (then
lower-cased and prefixed with `klb.`), and the client-facing alias record
emitted last keeps the original hostname as its name and targets that
`lbName`.  (For well-formed hostnames whose only wildcard is the leading
label this coincides with stripping just the leading `*.`.) -/
theorem c9_lb_name_strip : ∀ (cap : Capabilities) (gateway : Gateway)
    (routing : Routing) (hostname : String) (cur : CurMap) (h : Heap),
    mapValid cur h → gateway.addresses ≠ [] →
    ∃ front r,
      derefAll (getLoadBalancedEndpoints cap gateway routing hostname cur h).1
               (getLoadBalancedEndpoints cap gateway routing hostname cur h).2
        = front ++ [r] ∧
      r.dnsName = hostname ∧
      r.targets = [goToLower ("klb." ++
        (if isWildCardHost hostname then goReplaceStarDot hostname else hostname))] ∧
      r.recordType = CNAMERecordType ∧ r.recordTTL = DefaultCnameTTL := by
  intro cap gateway routing hostname cur h hvalid hne
  set cname := (if isWildCardHost hostname then goReplaceStarDot hostname else hostname) with hcname
  set lbN := goToLower ("klb." ++ cname) with hlbN
  set geoC := getGeoFromLabel gateway with hgeo
  set geoLbN := goToLower (geoC ++ "." ++ lbN) with hgeolb
  set st1 := clusterRecordStep cap gateway routing lbN cur h with hst1
  set st2 := st1.2.2.foldl (weightRecordStep cap routing gateway geoLbN cur)
    (st1.1, st1.2.1) with hst2
  have hgl : getLoadBalancedEndpoints cap gateway routing hostname cur h =
      lbTailSteps routing hostname lbN geoC geoLbN cur st2 := rfl
  rw [hgl]
  have hv2 : mapValid cur st2.1 := by
    refine mapValid_mono cur h st2.1 hvalid ?_
    refine Nat.le_trans (clusterRecordStep_grows cap gateway routing lbN cur h) ?_
    rw [hst2]
    exact weight_fold_heap_grows cap routing gateway geoLbN cur st1.2.2 (st1.1, st1.2.1)
  have hne2 : st2.2 ≠ [] := by
    have hlen := weight_fold_eps cap routing gateway geoLbN cur st1.2.2 (st1.1, st1.2.1)
    have hcount := clusterRecordStep_count cap gateway routing lbN cur h hne
    rw [← hst1] at hcount
    intro hc
    rw [hst2] at hc
    rw [hc] at hlen
    have h0 : (0 : Nat) = st1.2.1.length + st1.2.2.length := by simpa using hlen
    omega
  exact lbTailSteps_root routing hostname lbN geoC geoLbN cur st2 hv2 hne2

/-- C9 witness: `c9_lb_name_strip` applied to a concrete wildcard run. -/
theorem c9_lb_name_strip_witness :
    ∃ front r,
      derefAll (getLoadBalancedEndpoints capNone { addresses := [⟨"Hostname", "t"⟩] }
          { strategy := "loadbalanced", defaultGeoCode := "IE", defaultWeight := 1,
            clusterID := "c" } "*.x" [] []).1
        (getLoadBalancedEndpoints capNone { addresses := [⟨"Hostname", "t"⟩] }
          { strategy := "loadbalanced", defaultGeoCode := "IE", defaultWeight := 1,
            clusterID := "c" } "*.x" [] []).2 = front ++ [r] ∧
      r.dnsName = "*.x" ∧
      r.targets = [goToLower ("klb." ++
        (if isWildCardHost "*.x" then goReplaceStarDot "*.x" else "*.x"))] ∧
      r.recordType = CNAMERecordType ∧ r.recordTTL = DefaultCnameTTL :=
  c9_lb_name_strip capNone { addresses := [⟨"Hostname", "t"⟩] }
    { strategy := "loadbalanced", defaultGeoCode := "IE", defaultWeight := 1,
      clusterID := "c" } "*.x" [] [] (by decide) (by decide)

/-! ### Merge-step rewrite lemmas and the simple strategy -/

theorem createOrUpdateEndpoint_fresh (dn : String) (tg : List String)
    (rt st : String) (ttl : Nat) (cur : CurMap) (h : Heap)
    (hnone : List.lookup (dn ++ st) cur = none) :
    createOrUpdateEndpoint dn tg rt st ttl cur h =
      (h ++ [{ dnsName := dn, targets := tg, recordType := rt,
               setIdentifier := st, recordTTL := ttl }], h.length) := by
  by_cases hst : st = ""
  · subst hst
    rw [String.append_empty] at hnone
    simp [createOrUpdateEndpoint, hnone]
  · simp [createOrUpdateEndpoint, hnone, hst]

theorem createOrUpdateEndpoint_reuse (dn : String) (tg : List String)
    (rt st : String) (ttl : Nat) (cur : CurMap) (h : Heap) (p : Ptr)
    (hp : List.lookup (dn ++ st) cur = some p) :
    createOrUpdateEndpoint dn tg rt st ttl cur h =
      (heapSet h p { dnsName := dn, targets := tg, recordType := rt,
                     setIdentifier := (heapGet h p).setIdentifier, recordTTL := ttl,
                     labels := (heapGet h p).labels,
                     providerSpecific := (heapGet h p).providerSpecific }, p) := by
  simp [createOrUpdateEndpoint, hp]

theorem getSimpleEndpoints_fresh (gateway : Gateway) (hostname : String)
    (cur : CurMap) (h : Heap) (hnone : List.lookup hostname cur = none) :
    derefAll (getSimpleEndpoints gateway hostname cur h).1
             (getSimpleEndpoints gateway hostname cur h).2 =
      (if ipValuesOf gateway ≠ [] then
        [{ dnsName := hostname, targets := ipValuesOf gateway, recordType := ARecordType,
           setIdentifier := "", recordTTL := DefaultTTL }] else []) ++
      (if hostValuesOf gateway ≠ [] then
        [{ dnsName := hostname, targets := hostValuesOf gateway, recordType := CNAMERecordType,
           setIdentifier := "", recordTTL := DefaultTTL }] else []) := by
  have hkey : List.lookup (hostname ++ "") cur = none := by
    rw [String.append_empty]; exact hnone
  have e1 := createOrUpdateEndpoint_fresh hostname (ipValuesOf gateway) ARecordType "" DefaultTTL cur h hkey
  by_cases hip : ipValuesOf gateway ≠ []
  · by_cases hhost : hostValuesOf gateway ≠ []
    · have e2 := createOrUpdateEndpoint_fresh hostname (hostValuesOf gateway) CNAMERecordType "" DefaultTTL cur
        (h ++ [{ dnsName := hostname, targets := ipValuesOf gateway, recordType := ARecordType,
                 setIdentifier := "", recordTTL := DefaultTTL }]) hkey
      simp only [getSimpleEndpoints, if_pos hip, if_pos hhost, e1, e2, derefAll, List.map]
      rw [heapGet_append_lt _ _ _ (by simp), heapGet_append_self, heapGet_append_self]
      rfl
    · simp only [getSimpleEndpoints, if_pos hip, if_neg hhost, e1, derefAll, List.map]
      rw [heapGet_append_self]
      simp
  · by_cases hhost : hostValuesOf gateway ≠ []
    · have e2 := createOrUpdateEndpoint_fresh hostname (hostValuesOf gateway) CNAMERecordType "" DefaultTTL cur h hkey
      simp only [getSimpleEndpoints, if_neg hip, if_pos hhost, e2, derefAll, List.map]
      rw [heapGet_append_self]
      simp
    · simp only [getSimpleEndpoints, if_neg hip, if_neg hhost, derefAll, List.map]
      rfl

/-! ### Claim C4 -/

/-- C4 counterexample: with a previous record at identity (`h`, "") and a
gateway having both an IP and a hostname address, both returned entries are
the same mutated record (the Go code reuses one pointer for both
emissions): the output holds the alias record twice and the address (A)
record with the IP values is lost entirely, contradicting the claim. -/
theorem c4_counterexample :
    GenerateEndpoints capNone
      { addresses := [⟨"IPAddress", "1.1.1.1"⟩, ⟨"Hostname", "x"⟩] }
      (some { endpoints := [{ dnsName := "h", setIdentifier := "",
                              recordType := "A", targets := ["9.9.9.9"],
                              recordTTL := 60 }] })
      ⟨some "h"⟩ { strategy := "simple" } =
      .ok [{ dnsName := "h", targets := ["x"], recordType := "CNAME",
             recordTTL := 60 },
           { dnsName := "h", targets := ["x"], recordType := "CNAME",
             recordTTL := 60 }] ∧
    ("CNAME" : String) ≠ "A" :=
  ⟨by decide, by decide⟩

/-- C4 (amended): under the simple strategy, provided no previous record
occupies the identity key of the listener hostname (with empty set
identifier), synthesis partitions the addresses into IP and hostname
values and emits exactly one address (A) record with all IP values when
any exist, and one alias (CNAME) record with all hostname values when any
exist, each named with the listener hostname, with TTL 60, empty set
identifier and no provider attributes or labels. -/
theorem c4_simple_partition : ∀ (gateway : Gateway) (hostname : String)
    (cur : CurMap) (h : Heap),
    List.lookup hostname cur = none →
    derefAll (getSimpleEndpoints gateway hostname cur h).1
             (getSimpleEndpoints gateway hostname cur h).2 =
      (if ipValuesOf gateway ≠ [] then
        [{ dnsName := hostname, targets := ipValuesOf gateway, recordType := ARecordType,
           setIdentifier := "", recordTTL := DefaultTTL }] else []) ++
      (if hostValuesOf gateway ≠ [] then
        [{ dnsName := hostname, targets := hostValuesOf gateway, recordType := CNAMERecordType,
           setIdentifier := "", recordTTL := DefaultTTL }] else []) := by
  intro gateway hostname cur h hnone
  exact getSimpleEndpoints_fresh gateway hostname cur h hnone

/-- C4 witness: `c4_simple_partition` at a concrete mixed-address gateway
with an empty previous set. -/
theorem c4_simple_partition_witness :
    derefAll (getSimpleEndpoints
        { addresses := [⟨"IPAddress", "1.1.1.1"⟩, ⟨"Hostname", "x"⟩] } "h" [] []).1
      (getSimpleEndpoints
        { addresses := [⟨"IPAddress", "1.1.1.1"⟩, ⟨"Hostname", "x"⟩] } "h" [] []).2 =
      (if ipValuesOf { addresses := [⟨"IPAddress", "1.1.1.1"⟩, ⟨"Hostname", "x"⟩] } ≠ [] then
        [{ dnsName := "h",
           targets := ipValuesOf { addresses := [⟨"IPAddress", "1.1.1.1"⟩, ⟨"Hostname", "x"⟩] },
           recordType := ARecordType,
           setIdentifier := "", recordTTL := DefaultTTL }] else []) ++
      (if hostValuesOf { addresses := [⟨"IPAddress", "1.1.1.1"⟩, ⟨"Hostname", "x"⟩] } ≠ [] then
        [{ dnsName := "h",
           targets := hostValuesOf { addresses := [⟨"IPAddress", "1.1.1.1"⟩, ⟨"Hostname", "x"⟩] },
           recordType := CNAMERecordType,
           setIdentifier := "", recordTTL := DefaultTTL }] else []) :=
  c4_simple_partition { addresses := [⟨"IPAddress", "1.1.1.1"⟩, ⟨"Hostname", "x"⟩] }
    "h" [] [] (by decide)

/-! ### Claim C5 -/

/-- The geo-level records of the tail, when their identity keys are not
occupied by previous records: one fresh CNAME named `lbName` with set
identifier `geoCode` (geo attribute attached unless the geo code is the
sentinel default), and, exactly when the geo code equals the policy
default, a second fresh CNAME with set identifier "default" and the
wildcard geo attribute. -/
theorem geoRecordStep_fresh (routing : Routing)
    (lbName geoCode geoLbName : String) (cur : CurMap) (hp : Heap × List Ptr)
    (h1 : List.lookup (lbName ++ geoCode) cur = none)
    (h2 : List.lookup (lbName ++ "default") cur = none) :
    geoRecordStep routing lbName geoCode geoLbName cur hp =
      (hp.1 ++ [{ dnsName := lbName, targets := [geoLbName], recordType := CNAMERecordType,
                  setIdentifier := geoCode, recordTTL := DefaultCnameTTL,
                  providerSpecific := if geoCode ≠ DefaultGeo then
                    [(ProviderSpecificGeoCode, geoCode)] else [] }]
        ++ (if geoCode = routing.defaultGeoCode then
            [{ dnsName := lbName, targets := [geoLbName], recordType := CNAMERecordType,
               setIdentifier := "default", recordTTL := DefaultCnameTTL,
               providerSpecific := [(ProviderSpecificGeoCode, WildcardGeo)] }] else []),
       hp.2 ++ [hp.1.length]
        ++ (if geoCode = routing.defaultGeoCode then
            [(hp.1 ++ [({ dnsName := lbName, targets := [geoLbName], recordType := CNAMERecordType,
                          setIdentifier := geoCode, recordTTL := DefaultCnameTTL,
                          providerSpecific := if geoCode ≠ DefaultGeo then
                            [(ProviderSpecificGeoCode, geoCode)] else [] } : Endpoint)]).length]
            else [])) := by
  have e3 := createOrUpdateEndpoint_fresh lbName [geoLbName] CNAMERecordType geoCode
    DefaultCnameTTL cur hp.1 h1
  by_cases hdg : geoCode ≠ DefaultGeo
  · by_cases hdq : geoCode = routing.defaultGeoCode
    · have e4 := createOrUpdateEndpoint_fresh lbName [geoLbName] CNAMERecordType "default"
        DefaultCnameTTL cur
        (hp.1 ++ [{ dnsName := lbName, targets := [geoLbName], recordType := CNAMERecordType,
                    setIdentifier := geoCode, recordTTL := DefaultCnameTTL,
                    providerSpecific := [(ProviderSpecificGeoCode, geoCode)] }]) h2
      simp only [geoRecordStep, e3, if_pos hdg, if_pos hdq, heapGet_append_self,
        heapSet_append_self, Endpoint.setProviderSpecificProperty, setProviderSpecificList,
        e4]
    · simp only [geoRecordStep, e3, if_pos hdg, if_neg hdq, heapGet_append_self,
        heapSet_append_self, Endpoint.setProviderSpecificProperty, setProviderSpecificList]
      simp [hdq]
  · by_cases hdq : geoCode = routing.defaultGeoCode
    · have e4 := createOrUpdateEndpoint_fresh lbName [geoLbName] CNAMERecordType "default"
        DefaultCnameTTL cur
        (hp.1 ++ [{ dnsName := lbName, targets := [geoLbName], recordType := CNAMERecordType,
                    setIdentifier := geoCode, recordTTL := DefaultCnameTTL }]) h2
      simp only [geoRecordStep, e3, if_neg hdg, if_pos hdq, heapGet_append_self,
        heapSet_append_self, Endpoint.setProviderSpecificProperty, setProviderSpecificList,
        e4]
    · simp only [geoRecordStep, e3, if_neg hdg, if_neg hdq]
      simp [hdg, hdq]

/-- The root record of the tail, when its identity key is not occupied by
a previous record: a fresh CNAME for the original hostname. -/
theorem rootRecordStep_fresh (hostname lbName : String) (cur : CurMap)
    (hp : Heap × List Ptr) (hne : hp.2 ≠ [])
    (h3 : List.lookup (hostname ++ "") cur = none) :
    rootRecordStep hostname lbName cur hp =
      (hp.1 ++ [{ dnsName := hostname, targets := [lbName], recordType := CNAMERecordType,
                  setIdentifier := "", recordTTL := DefaultCnameTTL }],
       hp.2 ++ [hp.1.length]) := by
  have e5 := createOrUpdateEndpoint_fresh hostname [lbName] CNAMERecordType ""
    DefaultCnameTTL cur hp.1 h3
  rw [rootRecordStep, if_pos hne]
  simp only [e5]

/-- C5 (amended): for geo-weighted synthesis, provided no previous record
occupies the identity keys of the `lbName`-level or hostname-level records:
when the gateway has no addresses, zero records are produced; otherwise the
output ends with exactly one alias named `lbName` (set identifier =
geoCode, target = geoLbName, TTL 300, geo-code attribute unless geoCode is
the sentinel default), then — if and only if geoCode equals the policy's
defaultGeoCode — a second alias with set identifier "default" and geo
attribute `*`, and finally the alias for the original hostname targeting
`lbName` with TTL 300, empty set identifier and no attributes. -/
theorem c5_lb_level_records : ∀ (cap : Capabilities) (gateway : Gateway)
    (routing : Routing) (hostname : String) (cur : CurMap) (h : Heap)
    (lbN geoC geoLbN : String),
    lbN = goToLower ("klb." ++ (if isWildCardHost hostname then goReplaceStarDot hostname else hostname)) →
    geoC = getGeoFromLabel gateway →
    geoLbN = goToLower (geoC ++ "." ++ lbN) →
    List.lookup (lbN ++ geoC) cur = none →
    List.lookup (lbN ++ "default") cur = none →
    List.lookup (hostname ++ "") cur = none →
    ((gateway.addresses = [] →
      (getLoadBalancedEndpoints cap gateway routing hostname cur h).2 = []) ∧
     (gateway.addresses ≠ [] → ∃ front,
      derefAll (getLoadBalancedEndpoints cap gateway routing hostname cur h).1
               (getLoadBalancedEndpoints cap gateway routing hostname cur h).2
        = front
          ++ [{ dnsName := lbN, targets := [geoLbN], recordType := CNAMERecordType,
                setIdentifier := geoC, recordTTL := DefaultCnameTTL,
                providerSpecific := if geoC ≠ DefaultGeo then
                  [(ProviderSpecificGeoCode, geoC)] else [] }]
          ++ (if geoC = routing.defaultGeoCode then
              [{ dnsName := lbN, targets := [geoLbN], recordType := CNAMERecordType,
                 setIdentifier := "default", recordTTL := DefaultCnameTTL,
                 providerSpecific := [(ProviderSpecificGeoCode, WildcardGeo)] }] else [])
          ++ [{ dnsName := hostname, targets := [lbN], recordType := CNAMERecordType,
                setIdentifier := "", recordTTL := DefaultCnameTTL }])) := by
  intro cap gateway routing hostname cur h lbN geoC geoLbN hlb hgc hglb h1 h2 h3
  subst hglb
  subst hgc
  subst hlb
  set cname := (if isWildCardHost hostname then goReplaceStarDot hostname else hostname) with hcname
  set lbNv := goToLower ("klb." ++ cname) with hlbN
  set geoCv := getGeoFromLabel gateway with hgeo
  set geoLbNv := goToLower (geoCv ++ "." ++ lbNv) with hgeolb
  set st1 := clusterRecordStep cap gateway routing lbNv cur h with hst1
  set st2 := st1.2.2.foldl (weightRecordStep cap routing gateway geoLbNv cur)
    (st1.1, st1.2.1) with hst2
  have hgl : getLoadBalancedEndpoints cap gateway routing hostname cur h =
      lbTailSteps routing hostname lbNv geoCv geoLbNv cur st2 := rfl
  constructor
  · intro haddr
    have hip : ipValuesOf gateway = [] := by simp [ipValuesOf, haddr]
    have hhost : hostValuesOf gateway = [] := by simp [hostValuesOf, haddr]
    have hcl : clusterRecordStep cap gateway routing lbNv cur h = (h, [], []) := by
      rw [clusterRecordStep, if_neg (by simp [hip]), hhost]
    rw [hgl, hst2, hst1, hcl]
    simp [lbTailSteps]
  · intro hne
    have hne2 : st2.2 ≠ [] := by
      have hlen := weight_fold_eps cap routing gateway geoLbNv cur st1.2.2 (st1.1, st1.2.1)
      have hcount := clusterRecordStep_count cap gateway routing lbNv cur h hne
      rw [← hst1] at hcount
      intro hc
      rw [hst2] at hc
      rw [hc] at hlen
      have h0 : (0 : Nat) = st1.2.1.length + st1.2.2.length := by simpa using hlen
      omega
    rw [hgl, lbTailSteps, if_neg (by simpa using hne2)]
    rw [geoRecordStep_fresh routing lbNv geoCv geoLbNv cur st2 h1 h2]
    rw [rootRecordStep_fresh hostname lbNv cur _ (by simp) h3]
    dsimp only
    by_cases hdq : geoCv = routing.defaultGeoCode
    · simp only [if_pos hdq]
      rw [derefAll, List.map_append, List.map_append, List.map_append]
      simp only [List.map_cons, List.map_nil]
      rw [heapGet_append_self]
      rw [heapGet_append_lt _ _ _ (by simp)]
      rw [heapGet_append_lt _ _ _ (by simp)]
      rw [heapGet_append_self]
      rw [heapGet_append_lt _ _ _ (by simp)]
      rw [heapGet_append_self]
      exact ⟨_, rfl⟩
    · simp only [if_neg hdq]
      rw [derefAll, List.map_append, List.map_append, List.map_append]
      simp only [List.map_cons, List.map_nil]
      rw [heapGet_append_self]
      rw [heapGet_append_lt _ _ _ (by simp)]
      rw [heapGet_append_lt _ _ _ (by simp)]
      rw [heapGet_append_self]
      exact ⟨_, rfl⟩

/-- C5 counterexample: the claim as stated fails when a previous record
occupies the root identity key — the reused root record keeps its
externally attached provider attribute `("x", "y")`, although the claim
says the hostname alias carries no provider attributes. -/
theorem c5_counterexample :
    derefAll (getLoadBalancedEndpoints capNone { addresses := [⟨"Hostname", "a"⟩] }
        { strategy := "loadbalanced", defaultGeoCode := "IE", defaultWeight := 3,
          clusterID := "c" } "h"
        (buildCurrentEndpoints [{ dnsName := "h", providerSpecific := [("x", "y")] }])
        [{ dnsName := "h", providerSpecific := [("x", "y")] }]).1
      (getLoadBalancedEndpoints capNone { addresses := [⟨"Hostname", "a"⟩] }
        { strategy := "loadbalanced", defaultGeoCode := "IE", defaultWeight := 3,
          clusterID := "c" } "h"
        (buildCurrentEndpoints [{ dnsName := "h", providerSpecific := [("x", "y")] }])
        [{ dnsName := "h", providerSpecific := [("x", "y")] }]).2 =
      [{ dnsName := "default.klb.h", targets := ["a"], recordType := "CNAME",
         setIdentifier := "a", recordTTL := 60, providerSpecific := [("weight", "3")] },
       { dnsName := "klb.h", targets := ["default.klb.h"], recordType := "CNAME",
         setIdentifier := "default", recordTTL := 300 },
       { dnsName := "h", targets := ["klb.h"], recordType := "CNAME",
         recordTTL := 300, providerSpecific := [("x", "y")] }] ∧
    ([("x", "y")] : List (String × String)) ≠ [] :=
  ⟨by decide, by decide⟩

/-- C5 witness: `c5_lb_level_records` applied at a concrete geo-weighted
run with empty previous state (gateway without geo label, default geo of
the policy not matching the sentinel). -/
theorem c5_lb_level_records_witness :
    ((({ addresses := [⟨"Hostname", "a"⟩] } : Gateway).addresses = [] →
      (getLoadBalancedEndpoints capNone { addresses := [⟨"Hostname", "a"⟩] }
        { strategy := "loadbalanced", defaultGeoCode := "IE", defaultWeight := 3,
          clusterID := "c" } "h" [] []).2 = []) ∧
     (({ addresses := [⟨"Hostname", "a"⟩] } : Gateway).addresses ≠ [] → ∃ front,
      derefAll (getLoadBalancedEndpoints capNone { addresses := [⟨"Hostname", "a"⟩] }
          { strategy := "loadbalanced", defaultGeoCode := "IE", defaultWeight := 3,
            clusterID := "c" } "h" [] []).1
        (getLoadBalancedEndpoints capNone { addresses := [⟨"Hostname", "a"⟩] }
          { strategy := "loadbalanced", defaultGeoCode := "IE", defaultWeight := 3,
            clusterID := "c" } "h" [] []).2
        = front
          ++ [{ dnsName := "klb.h", targets := ["default.klb.h"], recordType := CNAMERecordType,
                setIdentifier := "default", recordTTL := DefaultCnameTTL,
                providerSpecific := if ("default" : String) ≠ DefaultGeo then
                  [(ProviderSpecificGeoCode, "default")] else [] }]
          ++ (if ("default" : String) =
                ({ strategy := "loadbalanced", defaultGeoCode := "IE", defaultWeight := 3,
                   clusterID := "c" } : Routing).defaultGeoCode then
              [{ dnsName := "klb.h", targets := ["default.klb.h"], recordType := CNAMERecordType,
                 setIdentifier := "default", recordTTL := DefaultCnameTTL,
                 providerSpecific := [(ProviderSpecificGeoCode, WildcardGeo)] }] else [])
          ++ [{ dnsName := "h", targets := ["klb.h"], recordType := CNAMERecordType,
                setIdentifier := "", recordTTL := DefaultCnameTTL }])) :=
  c5_lb_level_records capNone { addresses := [⟨"Hostname", "a"⟩] }
    { strategy := "loadbalanced", defaultGeoCode := "IE", defaultWeight := 3,
      clusterID := "c" } "h" [] [] "klb.h" "default" "default.klb.h"
    (by decide) (by decide) (by decide) rfl rfl rfl

theorem validateCustomWeights_none_mem : ∀ l : List CustomWeight,
    validateCustomWeights l = none →
    ∀ cw ∈ l, cw.weight ≠ 0 ∧ ¬ selectorIsEmpty cw := by
  intro l
  induction l with
  | nil => intro _ cw hm; simp at hm
  | cons a t ih =>
    intro hnone cw hm
    by_cases hw : a.weight = 0
    · simp [validateCustomWeights, hw] at hnone
    · by_cases hs : selectorIsEmpty a
      · have hb := (selectorIsEmpty_bool a).mpr hs
        simp [validateCustomWeights, hw, hb] at hnone
      · have hnot : ¬ (a.selector.matchLabels.isNone
            && (nilMapLen a.selector.matchLabels == 0)
            && a.selector.matchExpressions.isNone) = true := by
          rw [selectorIsEmpty_bool]; exact hs
        simp only [validateCustomWeights, if_neg hw, if_neg hnot] at hnone
        rcases List.mem_cons.mp hm with h1 | h1
        · exact h1 ▸ ⟨hw, hs⟩
        · exact ih hnone cw h1

theorem getWeightLoop_unique : ∀ (cap : Capabilities)
    (gwLabels : List (String × String)) (w : Int) (l : List CustomWeight)
    (cw0 : CustomWeight),
    (∀ cw ∈ l, (cap.compileSelector cw.selector).isSome) →
    cw0 ∈ l → matchesBool cap gwLabels cw0 = true →
    (∀ cw ∈ l, matchesBool cap gwLabels cw = true → cw = cw0) →
    getWeightLoop cap gwLabels w l = cw0.weight := by
  intro cap gwLabels w l
  induction l with
  | nil => intro cw0 _ hm; simp at hm
  | cons a t ih =>
    intro cw0 hall hmem hmatch huniq
    rcases Option.isSome_iff_exists.mp (hall a (List.mem_cons_self a t)) with ⟨m, hm⟩
    cases hml : m gwLabels with
    | true =>
      have ha : a = cw0 := huniq a (List.mem_cons_self a t) (by simp [matchesBool, hm, hml])
      simp only [getWeightLoop, hm, hml, if_pos]
      rw [ha]
    | false =>
      have hane : a ≠ cw0 := by
        intro hc
        rw [hc] at hm
        have h2 : m gwLabels = true := by simpa [matchesBool, hm] using hmatch
        rw [hml] at h2
        exact absurd h2 (by decide)
      have hmem2 : cw0 ∈ t := by
        rcases List.mem_cons.mp hmem with h1 | h1
        · exact absurd h1.symm hane
        · exact h1
      simp only [getWeightLoop, hm, hml, if_neg]
      exact ih cw0 (fun cw h1 => hall cw (List.mem_cons_of_mem a h1)) hmem2 hmatch
        (fun cw h1 => huniq cw (List.mem_cons_of_mem a h1))

theorem getLoadBalancedEndpoints_weight_congr (cap : Capabilities)
    (gateway : Gateway) (r1 r2 : Routing) (hostname : String)
    (cur : CurMap) (h : Heap)
    (hcl : r1.clusterID = r2.clusterID)
    (hdg : r1.defaultGeoCode = r2.defaultGeoCode)
    (hw : r1.getWeight cap gateway = r2.getWeight cap gateway) :
    getLoadBalancedEndpoints cap gateway r1 hostname cur h =
      getLoadBalancedEndpoints cap gateway r2 hostname cur h := by
  have hstep : weightRecordStep cap r1 gateway = weightRecordStep cap r2 gateway := by
    funext geoLbName cur2 acc hv
    simp only [weightRecordStep, hw]
  simp only [getLoadBalancedEndpoints, clusterRecordStep, lbTailSteps, geoRecordStep,
    hcl, hdg, hstep]

/-- Records that agree on every field except possibly the order of their
target lists. -/
def endpointSimilar (a b : Endpoint) : Prop :=
  a.dnsName = b.dnsName ∧ a.recordType = b.recordType ∧
  a.setIdentifier = b.setIdentifier ∧ a.recordTTL = b.recordTTL ∧
  a.labels = b.labels ∧ a.providerSpecific = b.providerSpecific ∧
  a.targets.Perm b.targets

theorem perm_ipValuesOf (gateway : Gateway) (addrs2 : List GatewayAddress)
    (hperm : gateway.addresses.Perm addrs2) :
    (ipValuesOf gateway).Perm (ipValuesOf { gateway with addresses := addrs2 }) := by
  simp only [ipValuesOf]
  exact (hperm.filter _).map _

theorem perm_hostValuesOf (gateway : Gateway) (addrs2 : List GatewayAddress)
    (hperm : gateway.addresses.Perm addrs2) :
    (hostValuesOf gateway).Perm (hostValuesOf { gateway with addresses := addrs2 }) := by
  simp only [hostValuesOf]
  exact (hperm.filter _).map _

theorem perm_ne_nil {l1 l2 : List String} (hperm : l1.Perm l2) :
    (l1 ≠ []) = (l2 ≠ []) := by
  have hl := hperm.length_eq
  cases l1 <;> cases l2 <;> simp_all

theorem insertionSort_pair (x y : Endpoint) (hxy : keyLE x y) :
    List.insertionSort keyLE [x, y] = [x, y] := by
  simp [List.insertionSort, List.orderedInsert, if_pos hxy]

theorem heapGet_heapSet_heapSet (h : Heap) (p : Ptr) (e1 e2 : Endpoint)
    (hp : p < h.length) :
    heapGet (heapSet (heapSet h p e1) p e2) p = e2 := by
  refine heapGet_heapSet_self (heapSet h p e1) p e2 ?_
  rw [heapSet_length]
  exact hp

def reusedRec (h : Heap) (p : Ptr) (hostname rt : String)
    (tg : List String) : Endpoint :=
  { dnsName := hostname, targets := tg, recordType := rt,
    setIdentifier := (heapGet h p).setIdentifier, recordTTL := DefaultTTL,
    labels := (heapGet h p).labels,
    providerSpecific := (heapGet h p).providerSpecific }

theorem getSimpleEndpoints_reused (gateway : Gateway) (hostname : String)
    (cur : CurMap) (h : Heap) (p : Ptr)
    (hp : List.lookup (hostname ++ "") cur = some p) (hlt : p < h.length) :
    derefAll (getSimpleEndpoints gateway hostname cur h).1
             (getSimpleEndpoints gateway hostname cur h).2 =
      (if hostValuesOf gateway ≠ [] then
        (if ipValuesOf gateway ≠ [] then
          [reusedRec h p hostname CNAMERecordType (hostValuesOf gateway),
           reusedRec h p hostname CNAMERecordType (hostValuesOf gateway)]
         else
          [reusedRec h p hostname CNAMERecordType (hostValuesOf gateway)])
       else if ipValuesOf gateway ≠ [] then
        [reusedRec h p hostname ARecordType (ipValuesOf gateway)]
       else []) := by
  have e1 := createOrUpdateEndpoint_reuse hostname (ipValuesOf gateway) ARecordType ""
    DefaultTTL cur h p hp
  by_cases hip : ipValuesOf gateway ≠ []
  · by_cases hhost : hostValuesOf gateway ≠ []
    · have e2 := createOrUpdateEndpoint_reuse hostname (hostValuesOf gateway) CNAMERecordType ""
        DefaultTTL cur (heapSet h p (reusedRec h p hostname ARecordType (ipValuesOf gateway)))
        p hp
      simp only [reusedRec] at e2
      simp only [getSimpleEndpoints, if_pos hip, if_pos hhost, e1, e2, derefAll,
        List.map_cons, List.map_nil, List.cons_append, List.nil_append, reusedRec]
      rw [heapGet_heapSet_self h p _ hlt]
      rw [heapGet_heapSet_heapSet h p _ _ hlt]
    · simp only [getSimpleEndpoints, if_pos hip, if_neg hhost, e1, derefAll,
        List.map_cons, List.map_nil, List.cons_append, List.nil_append, reusedRec]
      rw [heapGet_heapSet_self h p _ hlt]
  · by_cases hhost : hostValuesOf gateway ≠ []
    · have e2 := createOrUpdateEndpoint_reuse hostname (hostValuesOf gateway) CNAMERecordType ""
        DefaultTTL cur h p hp
      simp only [getSimpleEndpoints, if_neg hip, if_pos hhost, e2, derefAll,
        List.map_cons, List.map_nil, List.cons_append, List.nil_append, reusedRec]
      rw [heapGet_heapSet_self h p _ hlt]
    · simp only [getSimpleEndpoints, if_neg hip, if_neg hhost, derefAll, List.map_nil]

theorem mapInsert_mem (m : CurMap) (k : String) (v : Ptr) :
    ∀ kp ∈ mapInsert m k v, kp ∈ m ∨ kp.2 = v := by
  intro kp hm
  rw [mapInsert] at hm
  split at hm
  · rcases List.mem_map.mp hm with ⟨kv0, hkv0, heq⟩
    by_cases hb : (kv0.1 == k) = true
    · right; rw [← heq]; simp [hb]
    · left; rw [← heq]; simp [hb]; exact hkv0
  · rcases List.mem_append.mp hm with h1 | h1
    · left; exact h1
    · right
      have : kp = (k, v) := by simpa using h1
      rw [this]

theorem buildCurrentLoop_bound : ∀ (l : List Endpoint) (i : Nat) (m : CurMap) (n : Nat),
    (∀ kp ∈ m, kp.2 < n) → i + l.length ≤ n →
    ∀ kp ∈ buildCurrentLoop i l m, kp.2 < n := by
  intro l
  induction l with
  | nil => intro i m n hm _ kp hkp; exact hm kp hkp
  | cons e t ih =>
    intro i m n hm hlen kp hkp
    simp only [List.length_cons] at hlen
    have hlen2 : (i + 1) + t.length ≤ n := by omega
    refine ih (i + 1) _ n ?_ hlen2 kp hkp
    intro kp2 hkp2
    rcases mapInsert_mem m (getSetID e) i kp2 hkp2 with h1 | h1
    · exact hm kp2 h1
    · rw [h1]
      show i < n
      omega

theorem mapValid_buildCurrent (eps : List Endpoint) :
    mapValid (buildCurrentEndpoints eps) eps := by
  intro kp hkp
  exact buildCurrentLoop_bound eps 0 [] eps.length (by intro kp2 h2; simp at h2)
    (by simp) kp hkp

theorem Validate_perm (routing : Routing) (cws2 : List CustomWeight)
    (hperm : routing.customWeights.Perm cws2)
    (hval : routing.Validate = none) :
    Routing.Validate { routing with customWeights := cws2 } = none := by
  rw [Routing.Validate] at hval
  rw [Routing.Validate]
  by_cases hs : routing.strategy = SimpleRoutingStrategy
  · rw [if_pos hs] 
  · rw [if_neg hs] at hval ⊢
    by_cases hc : routing.clusterID = ""
    · rw [if_pos hc] at hval; exact absurd hval (by simp)
    · rw [if_neg hc] at hval ⊢
      by_cases hw : routing.defaultWeight = 0
      · rw [if_pos hw] at hval; exact absurd hval (by simp)
      · rw [if_neg hw] at hval ⊢
        by_cases hg : routing.defaultGeoCode = ""
        · rw [if_pos hg] at hval; exact absurd hval (by simp)
        · rw [if_neg hg] at hval ⊢
          exact validateCustomWeights_ok cws2 (fun cw hm =>
            validateCustomWeights_none_mem routing.customWeights hval cw
              (hperm.mem_iff.mpr hm))

theorem insertionSort_single (x : Endpoint) :
    List.insertionSort keyLE [x] = [x] := rfl

theorem weights_perm_core : ∀ (cap : Capabilities) (gateway : Gateway)
    (dnsRecord : Option DNSRecord) (listener : Listener) (routing : Routing)
    (cws2 : List CustomWeight) (l : List Endpoint),
    routing.customWeights.Perm cws2 →
    (∀ cw ∈ routing.customWeights, (cap.compileSelector cw.selector).isSome) →
    (∃ cw0 ∈ routing.customWeights, matchesBool cap gateway.labels cw0 = true ∧
      ∀ cw ∈ routing.customWeights, matchesBool cap gateway.labels cw = true → cw = cw0) →
    GenerateEndpoints cap gateway dnsRecord listener routing = .ok l →
    GenerateEndpoints cap gateway dnsRecord listener
      { routing with customWeights := cws2 } = .ok l := by
  intro cap gateway dnsRecord listener routing cws2 l hperm hall hex hok
  rcases hex with ⟨cw0, hmem, hmatch, huniq⟩
  have hw : Routing.getWeight { routing with customWeights := cws2 } cap gateway =
      routing.getWeight cap gateway := by
    rw [Routing.getWeight, Routing.getWeight]
    dsimp only
    rw [getWeightLoop_unique cap gateway.labels routing.defaultWeight cws2 cw0
        (fun cw hm => hall cw (hperm.mem_iff.mpr hm)) (hperm.mem_iff.mp hmem) hmatch
        (fun cw hm => huniq cw (hperm.mem_iff.mpr hm)),
      getWeightLoop_unique cap gateway.labels routing.defaultWeight routing.customWeights cw0
        hall hmem hmatch huniq]
  cases listener with
  | mk hostname =>
    cases hostname with
    | none => simp [GenerateEndpoints] at hok
    | some hn =>
      cases dnsRecord with
      | none => simp [GenerateEndpoints] at hok
      | some record =>
        cases hv : routing.Validate with
        | some e => simp [GenerateEndpoints, hv] at hok
        | none =>
          have hv2 := Validate_perm routing cws2 hperm hv
          simp only [GenerateEndpoints, hv] at hok
          simp only [GenerateEndpoints, hv2]
          by_cases hsimple : routing.strategy = SimpleRoutingStrategy
          · rw [if_pos hsimple] at hok ⊢
            exact hok
          · by_cases hlb : routing.strategy = LoadBalancedRoutingStrategy
            · rw [if_neg hsimple, if_pos hlb] at hok ⊢
              rw [getLoadBalancedEndpoints_weight_congr cap gateway
                { routing with customWeights := cws2 } routing hn
                (buildCurrentEndpoints record.endpoints) record.endpoints rfl rfl hw]
              exact hok
            · rw [if_neg hsimple, if_neg hlb] at hok
              exact absurd hok (by simp)

theorem forall2_sorted_pair (x1 y1 x2 y2 : Endpoint) (h1 : keyLE x1 y1)
    (h2 : keyLE x2 y2) (s1 : endpointSimilar x1 x2) (s2 : endpointSimilar y1 y2) :
    List.Forall₂ endpointSimilar (List.insertionSort keyLE [x1, y1])
      (List.insertionSort keyLE [x2, y2]) := by
  rw [insertionSort_pair x1 y1 h1, insertionSort_pair x2 y2 h2]
  exact List.Forall₂.cons s1 (List.Forall₂.cons s2 List.Forall₂.nil)

theorem simple_perm_core : ∀ (gateway : Gateway) (addrs2 : List GatewayAddress)
    (hn : String) (cur : CurMap) (heap : Heap),
    mapValid cur heap →
    gateway.addresses.Perm addrs2 →
    List.Forall₂ endpointSimilar
      (List.insertionSort keyLE
        (derefAll (getSimpleEndpoints gateway hn cur heap).1
                  (getSimpleEndpoints gateway hn cur heap).2))
      (List.insertionSort keyLE
        (derefAll (getSimpleEndpoints { gateway with addresses := addrs2 } hn cur heap).1
                  (getSimpleEndpoints { gateway with addresses := addrs2 } hn cur heap).2)) := by
  intro gateway addrs2 hn cur heap hvalid hperm
  have hipp := perm_ipValuesOf gateway addrs2 hperm
  have hhp := perm_hostValuesOf gateway addrs2 hperm
  cases hl : List.lookup (hn ++ "") cur with
  | none =>
    have hl2 : List.lookup hn cur = none := by rwa [String.append_empty] at hl
    rw [getSimpleEndpoints_fresh gateway hn cur heap hl2,
        getSimpleEndpoints_fresh { gateway with addresses := addrs2 } hn cur heap hl2]
    by_cases hip : ipValuesOf gateway ≠ []
    · have hip2 : ipValuesOf { gateway with addresses := addrs2 } ≠ [] := by
        rw [← perm_ne_nil hipp]; exact hip
      by_cases hhost : hostValuesOf gateway ≠ []
      · have hhost2 : hostValuesOf { gateway with addresses := addrs2 } ≠ [] := by
          rw [← perm_ne_nil hhp]; exact hhost
        rw [if_pos hip, if_pos hip2, if_pos hhost, if_pos hhost2]
        simp only [List.cons_append, List.nil_append]
        exact forall2_sorted_pair _ _ _ _ (le_refl (hn ++ "")) (le_refl (hn ++ ""))
          ⟨rfl, rfl, rfl, rfl, rfl, rfl, hipp⟩ ⟨rfl, rfl, rfl, rfl, rfl, rfl, hhp⟩
      · have hhost2 : ¬ hostValuesOf { gateway with addresses := addrs2 } ≠ [] := by
          rw [← perm_ne_nil hhp]; exact hhost
        rw [if_pos hip, if_pos hip2, if_neg hhost, if_neg hhost2]
        simp only [List.append_nil]
        exact List.Forall₂.cons ⟨rfl, rfl, rfl, rfl, rfl, rfl, hipp⟩ List.Forall₂.nil
    · have hip2 : ¬ ipValuesOf { gateway with addresses := addrs2 } ≠ [] := by
        rw [← perm_ne_nil hipp]; exact hip
      by_cases hhost : hostValuesOf gateway ≠ []
      · have hhost2 : hostValuesOf { gateway with addresses := addrs2 } ≠ [] := by
          rw [← perm_ne_nil hhp]; exact hhost
        rw [if_neg hip, if_neg hip2, if_pos hhost, if_pos hhost2]
        simp only [List.nil_append]
        exact List.Forall₂.cons ⟨rfl, rfl, rfl, rfl, rfl, rfl, hhp⟩ List.Forall₂.nil
      · have hhost2 : ¬ hostValuesOf { gateway with addresses := addrs2 } ≠ [] := by
          rw [← perm_ne_nil hhp]; exact hhost
        rw [if_neg hip, if_neg hip2, if_neg hhost, if_neg hhost2]
        exact List.Forall₂.nil
  | some p =>
    have hlt : p < heap.length := mapValid_lookup cur heap hvalid _ p hl
    rw [getSimpleEndpoints_reused gateway hn cur heap p hl hlt,
        getSimpleEndpoints_reused { gateway with addresses := addrs2 } hn cur heap p hl hlt]
    by_cases hhost : hostValuesOf gateway ≠ []
    · have hhost2 : hostValuesOf { gateway with addresses := addrs2 } ≠ [] := by
        rw [← perm_ne_nil hhp]; exact hhost
      by_cases hip : ipValuesOf gateway ≠ []
      · have hip2 : ipValuesOf { gateway with addresses := addrs2 } ≠ [] := by
          rw [← perm_ne_nil hipp]; exact hip
        rw [if_pos hhost, if_pos hhost2, if_pos hip, if_pos hip2]
        simp only [reusedRec]
        exact forall2_sorted_pair _ _ _ _ (le_refl _) (le_refl _)
          ⟨rfl, rfl, rfl, rfl, rfl, rfl, hhp⟩ ⟨rfl, rfl, rfl, rfl, rfl, rfl, hhp⟩
      · have hip2 : ¬ ipValuesOf { gateway with addresses := addrs2 } ≠ [] := by
          rw [← perm_ne_nil hipp]; exact hip
        rw [if_pos hhost, if_pos hhost2, if_neg hip, if_neg hip2]
        simp only [reusedRec]
        exact List.Forall₂.cons ⟨rfl, rfl, rfl, rfl, rfl, rfl, hhp⟩ List.Forall₂.nil
    · have hhost2 : ¬ hostValuesOf { gateway with addresses := addrs2 } ≠ [] := by
        rw [← perm_ne_nil hhp]; exact hhost
      by_cases hip : ipValuesOf gateway ≠ []
      · have hip2 : ipValuesOf { gateway with addresses := addrs2 } ≠ [] := by
          rw [← perm_ne_nil hipp]; exact hip
        rw [if_neg hhost, if_neg hhost2, if_pos hip, if_pos hip2]
        simp only [reusedRec]
        exact List.Forall₂.cons ⟨rfl, rfl, rfl, rfl, rfl, rfl, hipp⟩ List.Forall₂.nil
      · have hip2 : ¬ ipValuesOf { gateway with addresses := addrs2 } ≠ [] := by
          rw [← perm_ne_nil hipp]; exact hip
        rw [if_neg hhost, if_neg hhost2, if_neg hip, if_neg hip2]
        exact List.Forall₂.nil

theorem simple_perm_generate : ∀ (cap : Capabilities) (gateway : Gateway)
    (addrs2 : List GatewayAddress) (dnsRecord : Option DNSRecord)
    (listener : Listener) (routing : Routing) (l : List Endpoint),
    routing.strategy = SimpleRoutingStrategy →
    gateway.addresses.Perm addrs2 →
    GenerateEndpoints cap gateway dnsRecord listener routing = .ok l →
    ∃ l2, GenerateEndpoints cap { gateway with addresses := addrs2 }
        dnsRecord listener routing = .ok l2 ∧ List.Forall₂ endpointSimilar l l2 := by
  intro cap gateway addrs2 dnsRecord listener routing l hsimple hperm hok
  cases listener with
  | mk hostname =>
    cases hostname with
    | none => simp [GenerateEndpoints] at hok
    | some hn =>
      cases dnsRecord with
      | none => simp [GenerateEndpoints] at hok
      | some record =>
        have hv : routing.Validate = none := by rw [Routing.Validate, if_pos hsimple]
        simp only [GenerateEndpoints, hv] at hok
        simp only [GenerateEndpoints, hv]
        rw [if_pos hsimple] at hok ⊢
        injection hok with hok1
        exact ⟨_, rfl, by
          rw [← hok1]
          exact simple_perm_core gateway addrs2 hn
            (buildCurrentEndpoints record.endpoints) record.endpoints
            (mapValid_buildCurrent record.endpoints) hperm⟩

def gwS : Gateway :=
  { addresses := [⟨IPAddressType, "1.1.1.1"⟩, ⟨IPAddressType, "2.2.2.2"⟩] }

def gwS2 : Gateway :=
  { addresses := [⟨IPAddressType, "2.2.2.2"⟩, ⟨IPAddressType, "1.1.1.1"⟩] }

def liX : Listener := { hostname := some "x.io" }

def rtS : Routing := { strategy := "simple" }

def rtSW : Routing := { strategy := "simple", customWeights := [cwA, cwB] }

def rtW : Routing :=
  { strategy := "loadbalanced", defaultGeoCode := "IE", defaultWeight := 3,
    customWeights := [cwA, cwB], clusterID := "c" }

def recA12 : Endpoint :=
  { dnsName := "x.io", targets := ["1.1.1.1", "2.2.2.2"], recordType := ARecordType,
    setIdentifier := "", recordTTL := DefaultTTL }

/-- C8 counterexample at explicit inputs. -/
theorem c8_counterexample :
    gwS.addresses.Perm gwS2.addresses
    ∧ GenerateEndpoints capNone gwS (some {}) liX rtS ≠
        GenerateEndpoints capNone gwS2 (some {}) liX rtS
    ∧ rtW.customWeights.Perm [cwB, cwA]
    ∧ (∃ cw0 ∈ rtW.customWeights, matchesBool capBbad gwS.labels cw0 = true ∧
        ∀ cw ∈ rtW.customWeights, matchesBool capBbad gwS.labels cw = true → cw = cw0)
    ∧ GenerateEndpoints capBbad gwS (some {}) liX rtW ≠
        GenerateEndpoints capBbad gwS (some {}) liX { rtW with customWeights := [cwB, cwA] } := by
  decide

/-- C8 (amended): permuting the gateway addresses under the simple strategy
yields, record by record, the same output up to a permutation of each target
list; permuting the custom-weight entries yields the identical output
provided every selector compiles and exactly one entry matches. -/
theorem c8_perm_determinism :
    (∀ (cap : Capabilities) (gateway : Gateway) (addrs2 : List GatewayAddress)
        (dnsRecord : Option DNSRecord) (listener : Listener) (routing : Routing)
        (l : List Endpoint),
      routing.strategy = SimpleRoutingStrategy →
      gateway.addresses.Perm addrs2 →
      GenerateEndpoints cap gateway dnsRecord listener routing = .ok l →
      ∃ l2, GenerateEndpoints cap { gateway with addresses := addrs2 }
          dnsRecord listener routing = .ok l2 ∧ List.Forall₂ endpointSimilar l l2)
    ∧
    (∀ (cap : Capabilities) (gateway : Gateway) (dnsRecord : Option DNSRecord)
        (listener : Listener) (routing : Routing) (cws2 : List CustomWeight)
        (l : List Endpoint),
      routing.customWeights.Perm cws2 →
      (∀ cw ∈ routing.customWeights, (cap.compileSelector cw.selector).isSome) →
      (∃ cw0 ∈ routing.customWeights, matchesBool cap gateway.labels cw0 = true ∧
        ∀ cw ∈ routing.customWeights, matchesBool cap gateway.labels cw = true → cw = cw0) →
      GenerateEndpoints cap gateway dnsRecord listener routing = .ok l →
      GenerateEndpoints cap gateway dnsRecord listener
        { routing with customWeights := cws2 } = .ok l) :=
  ⟨simple_perm_generate, weights_perm_core⟩

/-- C8 witness: both halves of the determinism theorem applied at explicit
inputs, every hypothesis discharged by computation. -/
theorem c8_perm_determinism_witness :
    (∃ l2, GenerateEndpoints capNone
        { gwS with addresses := [⟨IPAddressType, "2.2.2.2"⟩, ⟨IPAddressType, "1.1.1.1"⟩] }
        (some {}) liX rtS = .ok l2 ∧ List.Forall₂ endpointSimilar [recA12] l2)
    ∧ GenerateEndpoints capA gwS (some {}) liX
        { rtSW with customWeights := [cwB, cwA] } = .ok [recA12] :=
  ⟨c8_perm_determinism.1 capNone gwS
      [⟨IPAddressType, "2.2.2.2"⟩, ⟨IPAddressType, "1.1.1.1"⟩]
      (some {}) liX rtS [recA12] (by decide) (by decide) (by decide),
   c8_perm_determinism.2 capA gwS (some {}) liX rtSW [cwB, cwA] [recA12]
      (by decide) (by decide) (by decide) (by decide)⟩
